import Mathlib

/-!
# ShadowRecon: the record pipeline of `src/services/discord/service.js`

A shallow embedding of the pipeline stages of `DiscordService`
(record source, transform, deduplicate, per-record lookup, batching, delivery,
folder naming), of the aggregator of `src/core/statistics.js`, and of the
properties the specification states about them.

Modelling conventions.

* A JavaScript string is the list of its UTF-16 code units (`String.length`,
  `substring` and a regular expression without the `u` flag all work on code
  units).
* A JavaScript `Set` of strings is the list of its elements in insertion order.
* Network and file-system calls are parameters of the model (`World`): each
  call either returns or raises.  The logger, `ErrorHandler.handle` and the
  `EmbedBuilder` constructors are total.
* `Promise.all` returns its results in the order of the input array.
-/

set_option autoImplicit false

namespace ShadowRecon

/-! ## JavaScript values -/

/-- A JavaScript string, as the list of its UTF-16 code units. -/
abbrev JSString := List Nat

/-- UTF-16 encoding of one code point. -/
def utf16 (c : Char) : List Nat :=
  if c.toNat < 65536 then [c.toNat]
  else [55296 + (c.toNat - 65536) / 1024, 56320 + (c.toNat - 65536) % 1024]

/-- The JavaScript string denoted by a literal. -/
def js (s : String) : JSString := s.toList.flatMap utf16

/-- Truthiness of a value that is a string, `undefined` or `null`
(`none` stands for `undefined`/`null`): only a non-empty string is truthy. -/
def truthy (v : Option JSString) : Bool :=
  match v with
  | some s => !s.isEmpty
  | none => false

/-- The text of a value that is a string, `undefined` or `null`, read where
it has been tested truthy (so it is the string); `undefined` otherwise. -/
def interpolate (v : Option JSString) : JSString :=
  match v with
  | some s => s
  | none => js "undefined"

/-- A field that a template literal prints without a test: `undefined`, `null`
or a string. -/
inductive JSField where
  | undefined
  | null
  | string (s : JSString)
deriving DecidableEq, Repr

/-- Template-literal interpolation `${field}`. -/
def JSField.text : JSField → JSString
  | .undefined => js "undefined"
  | .null => js "null"
  | .string s => s

/-- `Set.prototype.add`: a value already present is not inserted again. -/
def setAdd {α : Type} [DecidableEq α] (s : List α) (x : α) : List α :=
  if x ∈ s then s else s ++ [x]

/-- `new Set(iterable)`, read back with `Array.from` or `.size`. -/
def newSet {α : Type} [DecidableEq α] (xs : List α) : List α :=
  xs.foldl setAdd []

/-! ## Data model -/

/-- The object `response.data` of the lookup request (the fields
`getAccountInfo` reads; an absent field is `undefined`). -/
structure User where
  id : Option JSString
  username : JSField
  discriminator : JSField
  email : Option JSString
  phone : Option JSString
  verified : Option Bool
  mfa_enabled : Option Bool
  avatar : Option JSString
  bio : Option JSString
  premium_type : Option Int
  locale : Option JSString
  flags : Option Int
deriving DecidableEq, Repr

/-- One entry of the array returned by `getBillingInfo`. -/
structure Billing where
  type : Option Int
  brand : Option JSString
  last4 : Option JSString
  expiresMonth : Option Int
  expiresYear : Option Int
deriving DecidableEq, Repr

/-- The object returned by `getAccountInfo` (`tag`, `username` and
`discriminator` may be absent on an object made by another caller of
`getAccountFolderName`). -/
structure AccountData where
  id : Option JSString
  username : JSField
  discriminator : JSField
  tag : Option JSString
  email : Option JSString
  phone : Option JSString
  verified : Option Bool
  mfaEnabled : Option Bool
  avatar : Option JSString
  bio : JSString
  nitro : JSString
  badges : List JSString
  billings : List Billing
  locale : Option JSString
  flags : Option Int
deriving DecidableEq, Repr

/-- An entry of `accounts`: the object `{ ...accountData, token: token }`. -/
structure Account where
  data : AccountData
  token : JSString
deriving DecidableEq, Repr

/-- A call of `fileManager.saveText` or `fileManager.saveJson`. -/
inductive FileWrite where
  | text (content : JSString) (dir : JSString) (name : JSString)
  | json (content : AccountData) (dir : JSString) (name : JSString)
deriving DecidableEq, Repr

/-- The object `summary` of `getFormattedStats`. -/
structure Summary where
  totalPasswords : Nat
  totalCookies : Nat
  totalGames : Nat
  totalWallets : Nat
  totalDiscordAccounts : Nat
  timestamp : JSString
deriving DecidableEq, Repr

/-- The object `discord` of `getFormattedStats`. -/
structure DiscordSummary where
  accountCount : Nat
  hasPassphrases : Bool
deriving DecidableEq, Repr

/-- The object `getFormattedStats` returns: `summary` and `discord` hold
values, `browsers`, `collections` and `system` are the references of
`this.data`. -/
structure FormattedStats where
  summary : Summary
  browsers : Nat
  collections : Nat
  system : Nat
  discord : DiscordSummary
deriving DecidableEq, Repr

/-- An embed object, as the `EmbedBuilder` call that makes it
(`createAccountEmbed`, `createFileEmbed`, or `createSystemEmbed` with the
system fields and the formatted statistics it is given). -/
inductive Embed where
  | account (account : Account) (ip : JSString)
  | file (ip : JSString) (downloadUrl : Option JSString) (password : Option JSString)
  | system (username hostname ip : Option JSString) (stats : FormattedStats)
deriving DecidableEq, Repr

/-- The object `payload` handed to `sendWebhook`. -/
structure Payload where
  content : Option JSString
  embeds : List Embed
  attachments : List JSString
deriving DecidableEq, Repr

/-- The body of a network post: a JSON payload, or a form with an optional
`payload_json` part (its embeds) and a `file` part (its path). -/
inductive Body where
  | payload (p : Payload)
  | form (payloadJson : Option (List Embed)) (file : JSString)
deriving DecidableEq, Repr

/-- One call of `axios.post`. -/
structure Request where
  url : Option JSString
  body : Body
deriving DecidableEq, Repr

/-- The error classes the service raises. -/
inductive JSError where
  | NetworkError (message : JSString)
  | ModuleError (message : JSString)
  | TypeError (message : JSString)
deriving DecidableEq, Repr

/-- The argument `uploadResult` of `sendAccountEmbeds`. -/
structure UploadResult where
  downloadUrl : Option JSString
  password : Option JSString
deriving DecidableEq, Repr

/-- One entry of `this.discordPaths`. -/
structure ClientConfig where
  name : JSString
  basePaths : List JSString
deriving DecidableEq, Repr

/-- The fields of a `DiscordService` object (`browserPaths` is what
`this.browserService.getBrowserPaths()` returns). -/
structure Service where
  webhookUrl : Option JSString
  timeout : Nat
  discordPaths : List (JSString × ClientConfig)
  browserPaths : List JSString

/-- The collaborators of the service that are outside it.
`deduplicate` is `TokenUtils.deduplicate`; `getUser` and `getPaymentSources`
are the two `axios.get` requests (`none` when the request raises); `save` is
the file manager (`false` when the call raises); `post` is `axios.post` (the
response status, or the message of the error raised); `existsSync` is
`fs.existsSync`; `now` is `new Date().toISOString()`. -/
structure World where
  deduplicate : List JSString → List JSString
  getUser : JSString → Option User
  getPaymentSources : JSString → Option (List Billing)
  save : FileWrite → Bool
  post : Request → Except JSString Nat
  existsSync : JSString → Bool
  now : JSString

deriving instance DecidableEq for Except

/-- What a Reporter operation did: the value it returned or the error it
raised, and the network posts it made, in order. -/
structure Outcome where
  result : Except JSError Bool
  posts : List Request
deriving DecidableEq

/-- What `ensureDiscordFolderExists` did: whether it raised to its caller, the
file-manager calls it made, in order, and whether the `catch` of line 210
logged a warning. -/
structure FolderOutcome where
  raised : Bool
  writes : List FileWrite
  warned : Bool
deriving DecidableEq, Repr

/-! ## The lookup: `getAccountInfo` and its helpers -/

/-- `ToUint32` of an integer: the bit pattern the operator `&` works on. -/
def toUint32 (x : Int) : Nat := (x % 4294967296).toNat

/-- The table `badgeFlags`, in the order `Object.entries` lists it. -/
def badgeFlags : List (Nat × JSString) :=
  [(1, js "Discord Staff"), (2, js "Discord Partner"), (4, js "HypeSquad Events"),
   (8, js "Bug Hunter Level 1"), (64, js "HypeSquad Bravery"),
   (128, js "HypeSquad Brilliance"), (256, js "HypeSquad Balance"),
   (512, js "Early Supporter"), (16384, js "Bug Hunter Level 2"),
   (131072, js "Verified Bot Developer")]

/-- `DiscordService.parseBadges`. -/
def parseBadges (flags : Int) : List JSString :=
  badgeFlags.foldl
    (fun badges entry => if toUint32 flags &&& entry.1 ≠ 0 then badges ++ [entry.2] else badges)
    []

/-- `DiscordService.checkNitroStatus`. -/
def checkNitroStatus (user : User) : JSString :=
  if user.premium_type = some 2 then js "Nitro Boost"
  else if user.premium_type = some 1 then js "Nitro Classic"
  else js "None"

/-- `DiscordService.getBillingInfo`: the payment sources, or `[]` when the
request raises. -/
def getBillingInfo (w : World) (token : JSString) : List Billing :=
  match w.getPaymentSources token with
  | some sources => sources
  | none => []

/-- `DiscordService.getAccountInfo`: `none` is the `null` it returns when the
request raises. -/
def getAccountInfo (w : World) (token : JSString) : Option AccountData :=
  match w.getUser token with
  | some user =>
    let billing := getBillingInfo w token
    let nitro := checkNitroStatus user
    let badges := parseBadges (user.flags.getD 0)
    some {
      id := user.id
      username := user.username
      discriminator := user.discriminator
      tag := some (user.username.text ++ js "#" ++ user.discriminator.text)
      email := user.email
      phone := user.phone
      verified := user.verified
      mfaEnabled := user.mfa_enabled
      avatar := user.avatar
      bio := if truthy user.bio then interpolate user.bio else js ""
      nitro := nitro
      badges := badges
      billings := billing
      locale := user.locale
      flags := user.flags }
  | none => none

/-! ## `getAccountFolderName` -/

/-- The characters of the class `[<>:"/\\|?*]`. -/
def unsafeChars : List Nat := js "<>:\"/\\|?*"

/-- The display identifier: `accountData.tag || username#discriminator`. -/
def displayIdentifier (a : AccountData) : JSString :=
  if truthy a.tag then interpolate a.tag
  else a.username.text ++ js "#" ++ a.discriminator.text

/-- The call `folderName.replace(/[<>:"/\\|?*]/g, '_')`. -/
def replaceUnsafe (s : JSString) : JSString :=
  s.map (fun c => if c ∈ unsafeChars then '_'.toNat else c)

/-- The identifier after the replacement step. -/
def sanitizedIdentifier (a : AccountData) : JSString :=
  replaceUnsafe (displayIdentifier a)

/-- `DiscordService.getAccountFolderName`. -/
def getAccountFolderName (a : AccountData) : JSString :=
  let folderName := sanitizedIdentifier a
  if folderName.length > 50 then folderName.take 47 ++ js "..." else folderName

/-! ## `collectAccounts` -/

/-- The set `uniqueTokensSet` built at lines 105-106. -/
def uniqueTokensSet (w : World) (allTokens : List JSString) : List JSString :=
  newSet (w.deduplicate allTokens)

/-- The body of the per-token callback (lines 115-139): the lookup, the two
file writes, and `null` when the lookup returns `null` or anything raises. -/
def accountTask (w : World) (token : JSString) : Option Account :=
  match getAccountInfo w token with
  | some accountData =>
    let folderPath := js "Discord/" ++ getAccountFolderName accountData
    if w.save (.text token folderPath (js "token.txt")) then
      if w.save (.json accountData folderPath (js "account_info.json")) then
        some { data := accountData, token := token }
      else none
    else none
  | none => none

/-- The array `accountResults` of line 141. -/
def accountResults (w : World) (allTokens : List JSString) : List (Option Account) :=
  (uniqueTokensSet w allTokens).map (accountTask w)

/-- The array `accounts` returned by `collectAccounts`, from the collected
list `allTokens`: the non-null results, in order.  The calls that follow line
146 (the folder report, the statistics, the log) leave `accounts` as it is. -/
def collectAccounts (w : World) (allTokens : List JSString) : List Account :=
  (accountResults w allTokens).foldl
    (fun accounts r => match r with
      | some accountData => accounts ++ [accountData]
      | none => accounts) []

/-! ## `ensureDiscordFolderExists` -/

/-- `Array.prototype.join` on strings. -/
def joinWith (sep : JSString) : List JSString → JSString
  | [] => []
  | [x] => x
  | x :: y :: rest => x ++ sep ++ joinWith sep (y :: rest)

/-- Decimal text of a count, as a template literal prints it. -/
def showNat (n : Nat) : JSString := js (toString n)

/-- The template literal `infoMessage` of lines 183-203. -/
def infoMessage (svc : Service) (w : World) (accountCount uniqueTokenCount : Nat) : JSString :=
  js "Discord Module Execution Report\nGenerated: " ++ w.now ++
  js "\n\nStatus: Discord tokens detected but no accounts processed\nUnique Tokens Found: " ++
  showNat uniqueTokenCount ++ js "\nProcessed Accounts: " ++ showNat accountCount ++
  js "\n\nReason: This could happen for several reasons:\n- Discord tokens were found but couldn't be decrypted due to DPAPI issues\n- Discord tokens were found but account API requests failed\n- Discord tokens were found but were invalid/expired\n\nSearched Clients:\n" ++
  joinWith (js "\n")
    (svc.discordPaths.map (fun entry =>
      js "- " ++ entry.2.name ++ js ": " ++ joinWith (js ", ") entry.2.basePaths)) ++
  js "\n\nBrowser Paths Searched: " ++ showNat svc.browserPaths.length ++
  js " locations\n\nThis file indicates that the Discord module found tokens but couldn't process them into account information.\n"

/-- `DiscordService.ensureDiscordFolderExists`.  A raising `saveText` is caught
by the `catch` of line 210, so nothing reaches the caller. -/
def ensureDiscordFolderExists (svc : Service) (w : World)
    (accountCount uniqueTokenCount : Nat) : FolderOutcome :=
  if uniqueTokenCount = 0 then
    { raised := false, writes := [], warned := false }
  else if accountCount = 0 then
    let write := FileWrite.text (infoMessage svc w accountCount uniqueTokenCount)
      (js "Discord") (js "Tokens_Found_But_Not_Processed.txt")
    if w.save write then { raised := false, writes := [write], warned := false }
    else { raised := false, writes := [write], warned := true }
  else
    { raised := false, writes := [], warned := false }

/-! ## The Reporter: `sendWebhook`, `sendAccountEmbeds`, `sendFile`, `sendScreenshot` -/

/-- `DiscordService.createAccountEmbed`, with its default `ip = 'Unknown'`. -/
def createAccountEmbed (account : Account) (ip : Option JSString) : Embed :=
  Embed.account account (ip.getD (js "Unknown"))

/-- `DiscordService.sendWebhook`. -/
def sendWebhook (svc : Service) (w : World) (payload : Payload) : Outcome :=
  if !truthy svc.webhookUrl || svc.webhookUrl == some (js "%WEBHOOK%") then
    { result := .ok false, posts := [] }
  else
    let request : Request := { url := svc.webhookUrl, body := .payload payload }
    match w.post request with
    | .ok _ =>
      { result := .ok true, posts := [request] }
    | .error message =>
      { result := .error (.NetworkError (js "Failed to send webhook: " ++ message)),
        posts := [request] }

/-- The test of line 559: `(uploadResult && uploadResult.downloadUrl) || zipPassword`. -/
def hasFileInfo (uploadResult : Option UploadResult) (zipPassword : Option JSString) : Bool :=
  (match uploadResult with
    | some u => truthy u.downloadUrl
    | none => false) || truthy zipPassword

/-- The embed made at lines 560-564. -/
def fileEmbed (ip : JSString) (uploadResult : Option UploadResult)
    (zipPassword : Option JSString) : Embed :=
  Embed.file ip
    (match uploadResult with
      | some u => u.downloadUrl
      | none => none)
    (match uploadResult with
      | some u => if truthy u.password then u.password else zipPassword
      | none => zipPassword)

/-- The array `embeds` built at lines 556-566. -/
def accountEmbeds (accounts : List Account) (ip : Option JSString)
    (uploadResult : Option UploadResult) (zipPassword : Option JSString) : List Embed :=
  let embeds := (accounts.take 10).map (fun account => createAccountEmbed account ip)
  if hasFileInfo uploadResult zipPassword then
    embeds ++ [fileEmbed (ip.getD (js "Unknown")) uploadResult zipPassword]
  else embeds

/-- The object `payload` built at lines 568-572. -/
def accountPayload (accounts : List Account) (ip : Option JSString)
    (uploadResult : Option UploadResult) (zipPassword : Option JSString) : Payload :=
  { content := none
    embeds := accountEmbeds accounts ip uploadResult zipPassword
    attachments := [] }

/-- `DiscordService.sendAccountEmbeds` (`ip = none` is the default
`'Unknown'`; the unused `_zipPath` is left out). -/
def sendAccountEmbeds (svc : Service) (w : World) (accounts : List Account)
    (ip : Option JSString) (uploadResult : Option UploadResult)
    (zipPassword : Option JSString) : Outcome :=
  if accounts.length = 0 then
    { result := .ok true, posts := [] }
  else
    let sent := sendWebhook svc w (accountPayload accounts ip uploadResult zipPassword)
    match sent.result with
    | .ok status => { result := .ok status, posts := sent.posts }
    | .error _ => { result := .ok false, posts := sent.posts }

/-- `DiscordService.sendFile`.  Building the form does not raise; whatever
raises inside the `try` leaves as a `NetworkError`. -/
def sendFile (svc : Service) (w : World) (filePath : JSString) (embed : Option Embed) : Outcome :=
  let request : Request :=
    { url := svc.webhookUrl
      body := .form (embed.map (fun e => [e])) filePath }
  match w.post request with
  | .ok _ =>
    { result := .ok true, posts := [request] }
  | .error message =>
    { result := .error (.NetworkError (js "Failed to send file to webhook: " ++ message)),
      posts := [request] }

/-- `DiscordService.sendScreenshot` (the unused `_ip` is left out). -/
def sendScreenshot (svc : Service) (w : World) (screenshotPath : Option JSString) : Outcome :=
  if !truthy screenshotPath || !w.existsSync (interpolate screenshotPath) then
    { result := .ok false, posts := [] }
  else
    let request : Request :=
      { url := svc.webhookUrl
        body := .form none (interpolate screenshotPath) }
    match w.post request with
    | .ok _ => { result := .ok true, posts := [request] }
    | .error _ => { result := .ok false, posts := [request] }

/-- The accounts whose embed is in a posted body. -/
def embeddedAccounts (body : Body) : List Account :=
  match body with
  | .payload p =>
    p.embeds.filterMap (fun e => match e with
      | .account a _ => some a
      | _ => none)
  | .form _ _ => []

/-- The accounts delivered by an operation: those embedded in its posts. -/
def deliveredAccounts (o : Outcome) : List Account :=
  o.posts.flatMap (fun r => embeddedAccounts r.body)

/-- The number of deliveries the claim of section 4.5 asks for: `ceil(n/10)`. -/
def deliveriesNeeded (n : Nat) : Nat := (n + 9) / 10

/-- Both file writes of the per-token callback return. -/
def savesReturn (w : World) (token : JSString) (accountData : AccountData) : Bool :=
  w.save (.text token (js "Discord/" ++ getAccountFolderName accountData) (js "token.txt")) &&
  w.save (.json accountData (js "Discord/" ++ getAccountFolderName accountData)
    (js "account_info.json"))

/-! ## Sample inputs -/

/-- A user object with the given name. -/
def sampleUser (name : JSString) : User :=
  { id := some (js "1"), username := .string name, discriminator := .string (js "0"),
    email := none, phone := none, verified := some true, mfa_enabled := some false,
    avatar := none, bio := none, premium_type := none, locale := none, flags := some 64 }

/-- A world in which every external call returns. -/
def calmWorld : World :=
  { deduplicate := newSet
    getUser := fun token => some (sampleUser token)
    getPaymentSources := fun _ => some []
    save := fun _ => true
    post := fun _ => .ok 204
    existsSync := fun _ => true
    now := js "2024-01-01T00:00:00.000Z" }

/-- A world in which the file manager raises on every call. -/
def fullDiskWorld : World := { calmWorld with save := fun _ => false }

/-- A world in which every network post raises. -/
def offlineWorld : World := { calmWorld with post := fun _ => .error (js "timeout") }

/-- A service with a configured endpoint. -/
def liveService : Service :=
  { webhookUrl := some (js "https://example.invalid/hook"), timeout := 30000,
    discordPaths := [(js "discord", { name := js "Discord", basePaths := [js "discord"] })],
    browserPaths := [] }

/-- A service whose endpoint is still the placeholder. -/
def placeholderService : Service := { liveService with webhookUrl := some (js "%WEBHOOK%") }

/-- The account the lookup of `calmWorld` yields for a token. -/
def sampleAccount (token : JSString) : Account :=
  { data := (getAccountInfo calmWorld token).getD
      { id := none, username := .undefined, discriminator := .undefined, tag := none,
        email := none,
        phone := none, verified := none, mfaEnabled := none, avatar := none, bio := [],
        nitro := [], badges := [], billings := [], locale := none, flags := none }
    token := token }

/-- The first `n` sample accounts, with tokens `[0]`, `[1]`, ... -/
def sampleAccounts (n : Nat) : List Account :=
  (List.range n).map (fun i => sampleAccount [i])

/-! ## The record source: `getMasterKey`, `getEncryptedTokens`, `decryptTokens`, `collectClientTokens` -/

/-- One run of the reversible transform on one record (lines 302-315), as far
as it got: a step before `decipher.update` raises (no `dQw4w9WgXcQ:` part, a
key or tag the cipher refuses); `decipher.update` raises; `decipher.update`
returns some output and `decipher.final` raises (the authentication step);
or both return. -/
inductive TransformRun where
  | malformed
  | updateRaised
  | authFailure (updated : JSString)
  | done (updated : JSString) (final : JSString)
deriving DecidableEq, Repr

/-- The machine the record source reads.  `existsSync` is `fs.existsSync`;
`pathJoin` is `path.join`; `readLocalState` is the value of
`os_crypt.encrypted_key` in the parsed file (`none` when reading or parsing
raises, `some none` when the key is absent); `base64` is
`Buffer.from(_, 'base64')`; `unprotectData` is `Dpapi.unprotectData` (`none`
when it raises); `readdirSync` is `fs.readdirSync` (`none` when it raises);
`matchEncrypted` is the list of matches of `/dQw4w9WgXcQ:[^"]*/gm` in a file
(`none` when the file cannot be read); `transform` is the reversible
transform; `collectBrowserTokens` is the browser service (`none` when it
raises). -/
structure Host where
  existsSync : JSString → Bool
  pathJoin : List JSString → JSString
  readLocalState : JSString → Option (Option JSString)
  base64 : JSString → List Nat
  unprotectData : List Nat → Option (List Nat)
  readdirSync : JSString → Option (List JSString)
  matchEncrypted : JSString → Option (List JSString)
  transform : List Nat → JSString → TransformRun
  collectBrowserTokens : Option (List JSString)

/-- `DiscordService.getMasterKey`: `none` is the `null` it returns. -/
def getMasterKey (h : Host) (basePath : JSString) : Option (List Nat) :=
  let localStatePath := h.pathJoin [basePath, js "Local State"]
  if !h.existsSync localStatePath then none
  else
    match h.readLocalState localStatePath with
    | none => none
    | some encryptedKey =>
      if !truthy encryptedKey then none
      else h.unprotectData ((h.base64 (interpolate encryptedKey)).drop 5)

/-- `String.prototype.endsWith`. -/
def endsWith (s suffix : JSString) : Bool := suffix.isSuffixOf s

/-- `DiscordService.getEncryptedTokens`. -/
def getEncryptedTokens (w : World) (h : Host) (leveldbPath : JSString) : List JSString :=
  if !h.existsSync leveldbPath then []
  else
    match h.readdirSync leveldbPath with
    | none => w.deduplicate []
    | some files =>
      w.deduplicate (files.foldl
        (fun encryptedTokens file =>
          if !(endsWith file (js ".log") || endsWith file (js ".ldb")) then encryptedTokens
          else
            match h.matchEncrypted (h.pathJoin [leveldbPath, file]) with
            | some found => encryptedTokens ++ found
            | none => encryptedTokens)
        [])

/-- One pass of the loop of `decryptTokens` (lines 300-323): a record whose
transform raises at any step is skipped by the `catch` of line 320. -/
def decryptStep (h : Host) (masterKey : List Nat) (tokens : List JSString)
    (encryptedToken : JSString) : List JSString :=
  match h.transform masterKey encryptedToken with
  | .done updated final =>
    let decryptedToken := updated ++ final
    if !decryptedToken.isEmpty then tokens ++ [decryptedToken] else tokens
  | _ => tokens

/-- `DiscordService.decryptTokens`. -/
def decryptTokens (h : Host) (encryptedTokens : List JSString) (masterKey : List Nat) :
    List JSString :=
  encryptedTokens.foldl (decryptStep h masterKey) []

/-- One pass of the loop of `collectClientTokens` (lines 339-367). -/
def collectLocation (w : World) (h : Host) (tokens : List JSString) (basePath : JSString) :
    List JSString :=
  if !h.existsSync basePath then tokens
  else
    match getMasterKey h basePath with
    | none => tokens
    | some masterKey =>
      let leveldbPath := h.pathJoin [basePath, js "Local Storage", js "leveldb"]
      let encryptedTokens := getEncryptedTokens w h leveldbPath
      if encryptedTokens.length = 0 then tokens
      else tokens ++ decryptTokens h encryptedTokens masterKey

/-- `DiscordService.collectClientTokens`. -/
def collectClientTokens (w : World) (h : Host) (clientConfig : ClientConfig) : List JSString :=
  clientConfig.basePaths.foldl (collectLocation w h) []

/-- The array `allTokens` of `collectAccounts` (lines 76-102): the tokens of
each client, in the order of `Object.entries(this.discordPaths)`, then the
browser tokens when the browser service returns. -/
def collectAllTokens (svc : Service) (w : World) (h : Host) : List JSString :=
  let clientResults := svc.discordPaths.map (fun entry => collectClientTokens w h entry.2)
  let allTokens := clientResults.foldl (fun allTokens clientTokens => allTokens ++ clientTokens) []
  match h.collectBrowserTokens with
  | some browserTokens => allTokens ++ browserTokens
  | none => allTokens

/-- The plaintext a record yields when its transform fully succeeds with a
non-empty result; `none` otherwise. -/
def plaintextOf (h : Host) (masterKey : List Nat) (encryptedToken : JSString) :
    Option JSString :=
  match h.transform masterKey encryptedToken with
  | .done updated final => if updated ++ final = [] then none else some (updated ++ final)
  | _ => none

/-- What one base path adds to the result of `collectClientTokens`: the
decrypted records of a location that is present, has a key and has records,
and nothing otherwise. -/
def locationTokens (w : World) (h : Host) (basePath : JSString) : List JSString :=
  match h.existsSync basePath, getMasterKey h basePath with
  | true, some masterKey =>
    decryptTokens h
      (getEncryptedTokens w h (h.pathJoin [basePath, js "Local Storage", js "leveldb"])) masterKey
  | _, _ => []

/-! ## The aggregator: `src/core/statistics.js`

The objects behind `this.data` are kept in a heap, because the snapshot
operations hand out references to them: `browsers`, `collections`, `system`
and `discord` are addresses, and an operation that mutates in place writes
the cell at the address.  A count is a natural number that is a double, and
`+=` gives the double nearest to the sum (`jsAdd`): the sum itself up to
`2^53`, a rounded value beyond.  A sum of `2^1024` or more, which is
`Infinity` in JavaScript, is outside the model. -/

/-- The gap between neighbouring doubles at `n`: the least power of two `q`,
from `q` on, with `n / q < 2^53` (within the number of doublings given). -/
def doubleGap : Nat → Nat → Nat → Nat
  | 0, _, q => q
  | doublings + 1, n, q =>
    if n / q < 9007199254740992 then q else doubleGap doublings n (2 * q)

/-- The double nearest to a natural number below `2^1024`, ties going to the
even significand (the rounding of IEEE 754 arithmetic). -/
def roundToDouble (n : Nat) : Nat :=
  let q := doubleGap 1024 n 1
  let r := n % q
  let low := n - r
  if 2 * r < q then low
  else if q < 2 * r then low + q
  else if (low / q) % 2 = 0 then low
  else low + q

/-- The operator `+` on two counts. -/
def jsAdd (a b : Nat) : Nat := roundToDouble (a + b)

/-- The object `data.browsers`. -/
structure BrowserCounts where
  passwords : Nat
  cookies : Nat
  autofills : Nat
  cards : Nat
  history : Nat
  downloads : Nat
  bookmarks : Nat
deriving DecidableEq, Repr

/-- The argument `browserData` of `addBrowser`: each field absent or a count. -/
structure BrowserData where
  passwords : Option Nat
  cookies : Option Nat
  autofills : Option Nat
  cards : Option Nat
  history : Option Nat
  downloads : Option Nat
  bookmarks : Option Nat
deriving DecidableEq, Repr

/-- The object `data.collections`, with the contents of its ten arrays. -/
structure Collections where
  games : List JSString
  exodus : List JSString
  keywordPasswords : List JSString
  vpn : List JSString
  sysadmin : List JSString
  extensions : List JSString
  colds : List JSString
  mnemonics : List JSString
  messengers : List JSString
  files : List JSString
deriving DecidableEq, Repr

/-- The object `data.system`. -/
structure SystemInfo where
  ip : Option JSString
  hostname : Option JSString
  username : Option JSString
  timestamp : JSString
deriving DecidableEq, Repr

/-- The object `data.discord`, with the contents of its two arrays. -/
structure DiscordStats where
  accounts : List Account
  passphrases : List JSString
deriving DecidableEq, Repr

/-- The four kinds of object the aggregator allocates, each by address. -/
structure Heap where
  browsers : Nat → BrowserCounts
  collections : Nat → Collections
  system : Nat → SystemInfo
  discord : Nat → DiscordStats
  next : Nat

/-- An object with the four fields of `this.data`, each a reference. -/
structure DataObject where
  browsers : Nat
  collections : Nat
  system : Nat
  discord : Nat
deriving DecidableEq, Repr

/-- A `Statistics` object together with the heap it lives in. -/
structure Statistics where
  heap : Heap
  data : DataObject

/-- The counters as the object sees them now. -/
def Statistics.browsers (st : Statistics) : BrowserCounts := st.heap.browsers st.data.browsers

/-- The collections as the object sees them now. -/
def Statistics.collections (st : Statistics) : Collections :=
  st.heap.collections st.data.collections

/-- The system part as the object sees it now. -/
def Statistics.system (st : Statistics) : SystemInfo := st.heap.system st.data.system

/-- The discord part as the object sees it now. -/
def Statistics.discord (st : Statistics) : DiscordStats := st.heap.discord st.data.discord

/-- The object literal `browsers` of `reset`. -/
def BrowserCounts.zero : BrowserCounts :=
  { passwords := 0, cookies := 0, autofills := 0, cards := 0, history := 0, downloads := 0,
    bookmarks := 0 }

/-- The object literal `collections` of `reset`. -/
def Collections.empty : Collections :=
  { games := [], exodus := [], keywordPasswords := [], vpn := [], sysadmin := [],
    extensions := [], colds := [], mnemonics := [], messengers := [], files := [] }

/-- `Statistics.reset`: `this.data` becomes a new object with four new
objects behind it (`now` is `new Date().toISOString()`). -/
def Statistics.reset (now : JSString) (st : Statistics) : Statistics :=
  let a := st.heap.next
  { heap :=
      { browsers := Function.update st.heap.browsers a BrowserCounts.zero
        collections := Function.update st.heap.collections a Collections.empty
        system := Function.update st.heap.system a
          { ip := none, hostname := none, username := none, timestamp := now }
        discord := Function.update st.heap.discord a { accounts := [], passphrases := [] }
        next := a + 1 }
    data := { browsers := a, collections := a, system := a, discord := a } }

/-- A heap in which nothing has been allocated. -/
def Heap.initial : Heap :=
  { browsers := fun _ => BrowserCounts.zero
    collections := fun _ => Collections.empty
    system := fun _ => { ip := none, hostname := none, username := none, timestamp := [] }
    discord := fun _ => { accounts := [], passphrases := [] }
    next := 0 }

/-- The constructor: `this.reset()` on a new object. -/
def Statistics.new (now : JSString) : Statistics :=
  Statistics.reset now
    { heap := Heap.initial, data := { browsers := 0, collections := 0, system := 0, discord := 0 } }

/-- `Statistics.addBrowser`: seven `+=` on the object `data.browsers`
(`x || 0` is the field, or 0 when it is absent). -/
def Statistics.addBrowser (st : Statistics) (browserData : BrowserData) : Statistics :=
  let old := st.heap.browsers st.data.browsers
  { st with heap := { st.heap with
      browsers := Function.update st.heap.browsers st.data.browsers
        { passwords := jsAdd old.passwords (browserData.passwords.getD 0)
          cookies := jsAdd old.cookies (browserData.cookies.getD 0)
          autofills := jsAdd old.autofills (browserData.autofills.getD 0)
          cards := jsAdd old.cards (browserData.cards.getD 0)
          history := jsAdd old.history (browserData.history.getD 0)
          downloads := jsAdd old.downloads (browserData.downloads.getD 0)
          bookmarks := jsAdd old.bookmarks (browserData.bookmarks.getD 0) } } }

/-- The ten own properties of `data.collections`. -/
inductive CollectionName where
  | games | exodus | keywordPasswords | vpn | sysadmin
  | extensions | colds | mnemonics | messengers | files
deriving DecidableEq, Repr

/-- The keys of the object literal `collections`. -/
def collectionKeys : List (JSString × CollectionName) :=
  [(js "games", .games), (js "exodus", .exodus), (js "keywordPasswords", .keywordPasswords),
   (js "vpn", .vpn), (js "sysadmin", .sysadmin), (js "extensions", .extensions),
   (js "colds", .colds), (js "mnemonics", .mnemonics), (js "messengers", .messengers),
   (js "files", .files)]

/-- The properties an object literal inherits from `Object.prototype`; each
is a function or an object, so each is truthy and none has a `push`. -/
def objectPrototypeKeys : List JSString :=
  [js "constructor", js "__proto__", js "hasOwnProperty", js "isPrototypeOf",
   js "propertyIsEnumerable", js "toLocaleString", js "toString", js "valueOf",
   js "__defineGetter__", js "__defineSetter__", js "__lookupGetter__", js "__lookupSetter__"]

/-- What `this.data.collections[collection]` evaluates to. -/
inductive Property where
  | own (name : CollectionName)
  | inherited
  | undefined
deriving DecidableEq, Repr

/-- The property read `this.data.collections[collection]`. -/
def lookupCollection (collection : JSString) : Property :=
  match collectionKeys.lookup collection with
  | some name => .own name
  | none => if collection ∈ objectPrototypeKeys then .inherited else .undefined

/-- The array of a collection. -/
def Collections.get (c : Collections) : CollectionName → List JSString
  | .games => c.games
  | .exodus => c.exodus
  | .keywordPasswords => c.keywordPasswords
  | .vpn => c.vpn
  | .sysadmin => c.sysadmin
  | .extensions => c.extensions
  | .colds => c.colds
  | .mnemonics => c.mnemonics
  | .messengers => c.messengers
  | .files => c.files

/-- `Array.prototype.push` on the array of a collection. -/
def Collections.push (c : Collections) (name : CollectionName) (item : JSString) : Collections :=
  match name with
  | .games => { c with games := c.games ++ [item] }
  | .exodus => { c with exodus := c.exodus ++ [item] }
  | .keywordPasswords => { c with keywordPasswords := c.keywordPasswords ++ [item] }
  | .vpn => { c with vpn := c.vpn ++ [item] }
  | .sysadmin => { c with sysadmin := c.sysadmin ++ [item] }
  | .extensions => { c with extensions := c.extensions ++ [item] }
  | .colds => { c with colds := c.colds ++ [item] }
  | .mnemonics => { c with mnemonics := c.mnemonics ++ [item] }
  | .messengers => { c with messengers := c.messengers ++ [item] }
  | .files => { c with files := c.files ++ [item] }

/-- What a call on the aggregator did: the error it raised, if any, and the
object afterwards. -/
structure StatsOutcome where
  raised : Option JSError
  after : Statistics

/-- `Statistics.addToCollection`.  An own property is an array, which is
truthy; the call `.push(item)` on an inherited property raises a `TypeError`,
since that property has no `push`. -/
def Statistics.addToCollection (st : Statistics) (collection : JSString) (item : JSString) :
    StatsOutcome :=
  match lookupCollection collection with
  | .own name =>
    { raised := none
      after := { st with heap := { st.heap with
        collections := Function.update st.heap.collections st.data.collections
          ((st.heap.collections st.data.collections).push name item) } } }
  | .inherited =>
    { raised := some (.TypeError
        (js "this.data.collections[collection].push is not a function"))
      after := st }
  | .undefined => { raised := none, after := st }

/-- `Statistics.addDiscordAccount`. -/
def Statistics.addDiscordAccount (st : Statistics) (account : Account) : Statistics :=
  let old := st.heap.discord st.data.discord
  { st with heap := { st.heap with
      discord := Function.update st.heap.discord st.data.discord
        { old with accounts := old.accounts ++ [account] } } }

/-- `Statistics.addPassphrase` (`none` is an absent argument). -/
def Statistics.addPassphrase (st : Statistics) (passphrase : Option JSString) : Statistics :=
  let old := st.heap.discord st.data.discord
  if truthy passphrase && !(old.passphrases.contains (interpolate passphrase)) then
    { st with heap := { st.heap with
        discord := Function.update st.heap.discord st.data.discord
          { old with passphrases := old.passphrases ++ [interpolate passphrase] } } }
  else st

/-- The argument `systemInfo` of `setSystemInfo`: the fields it carries. -/
structure SystemUpdate where
  ip : Option (Option JSString)
  hostname : Option (Option JSString)
  username : Option (Option JSString)
deriving DecidableEq, Repr

/-- `Statistics.setSystemInfo`: `this.data.system` becomes a new object. -/
def Statistics.setSystemInfo (now : JSString) (st : Statistics) (systemInfo : SystemUpdate) :
    Statistics :=
  let old := st.heap.system st.data.system
  let a := st.heap.next
  { heap := { st.heap with
      system := Function.update st.heap.system a
        { ip := systemInfo.ip.getD old.ip
          hostname := systemInfo.hostname.getD old.hostname
          username := systemInfo.username.getD old.username
          timestamp := now }
      next := a + 1 }
    data := { st.data with system := a } }

/-- `Statistics.getFormattedStats`: the object returned, and the aggregator
afterwards. -/
def Statistics.getFormattedStats (st : Statistics) : FormattedStats × Statistics :=
  ({ summary :=
      { totalPasswords := (st.heap.browsers st.data.browsers).passwords
        totalCookies := (st.heap.browsers st.data.browsers).cookies
        totalGames := (st.heap.collections st.data.collections).games.length
        totalWallets := (st.heap.collections st.data.collections).exodus.length +
          (st.heap.collections st.data.collections).colds.length
        totalDiscordAccounts := (st.heap.discord st.data.discord).accounts.length
        timestamp := (st.heap.system st.data.system).timestamp }
     browsers := st.data.browsers
     collections := st.data.collections
     system := st.data.system
     discord :=
      { accountCount := (st.heap.discord st.data.discord).accounts.length
        hasPassphrases := decide ((st.heap.discord st.data.discord).passphrases.length > 0) } },
   st)

/-- `Statistics.getRawData`: the copy `{ ...this.data }`, whose four fields
are the references of `this.data`, and the aggregator afterwards. -/
def Statistics.getRawData (st : Statistics) : DataObject × Statistics :=
  ({ browsers := st.data.browsers, collections := st.data.collections,
     system := st.data.system, discord := st.data.discord }, st)

/-- The contents of `this.data`, as `JSON.stringify` walks them. -/
structure DataContents where
  browsers : BrowserCounts
  collections : Collections
  system : SystemInfo
  discord : DiscordStats
deriving DecidableEq, Repr

/-- What is seen through an object with the four references, in a heap. -/
def DataObject.contents (d : DataObject) (heap : Heap) : DataContents :=
  { browsers := heap.browsers d.browsers, collections := heap.collections d.collections,
    system := heap.system d.system, discord := heap.discord d.discord }

/-- `Statistics.exportToJson`, with `JSON.stringify(_, null, 2)` as a
function of the contents: the text returned, and the aggregator afterwards. -/
def Statistics.exportToJson (stringify : DataContents → JSString) (st : Statistics) :
    JSString × Statistics :=
  (stringify (st.data.contents st.heap), st)

/-- The loop of lines 152-154 of `collectAccounts`. -/
def recordAccounts (st : Statistics) (accounts : List Account) : Statistics :=
  accounts.foldl Statistics.addDiscordAccount st

/-! ## Order and concurrency of the lookups in `collectAccounts` -/

/-- Modelled from the spec: `TokenUtils.deduplicate` of
`src/core/tokenUtils.js`, which is not among the sources.  Section 2 has the
Deduplicator "filtering duplicates with stable ordering": every record is kept
once, at its first occurrence. -/
def stableDeduplicate : List JSString → List JSString
  | [] => []
  | x :: xs => x :: (stableDeduplicate xs).filter (fun y => y ≠ x)

/-- The result array of `Promise.all`: each promise writes its value into the
slot of its own index when it settles; `order` lists the indices in the order
the promises settle. -/
def settleAll {β : Type} (values : List β) (order : List Nat) : List (Option β) :=
  order.foldl
    (fun slots i =>
      match values[i]? with
      | some v => slots.set i (some v)
      | none => slots)
    (List.replicate values.length none)

/-- The array `accounts` of `collectAccounts` when the lookups settle in the
given order: `Promise.all` fills `accountResults`, and the loop of line 142
pushes the non-null entries. -/
def collectAccountsIn (w : World) (allTokens : List JSString) (order : List Nat) :
    List Account :=
  (settleAll (accountResults w allTokens) order).foldl
    (fun accounts r => match r with
      | some (some accountData) => accounts ++ [accountData]
      | _ => accounts) []

/-- A lookup is dispatched (its request is made) or settles. -/
inductive LookupEvent where
  | dispatched (index : Nat)
  | settled (index : Nat)
deriving DecidableEq, Repr

/-- The events of lines 115-141: `map` calls the callback for every unique
token in turn, and each call runs as far as its first `await`, where the
request is made; the promises settle afterwards, in the given order. -/
def lookupEvents (w : World) (allTokens : List JSString) (order : List Nat) :
    List LookupEvent :=
  (List.range (uniqueTokensSet w allTokens).length).map LookupEvent.dispatched ++
    order.map LookupEvent.settled

/-- The number of lookups dispatched and not yet settled after some events. -/
def inFlight (events : List LookupEvent) : Nat :=
  events.countP (fun e => match e with
    | .dispatched _ => true
    | .settled _ => false) -
  events.countP (fun e => match e with
    | .dispatched _ => false
    | .settled _ => true)

/-- The largest number of lookups in flight at any moment of a run. -/
def peakInFlight (events : List LookupEvent) : Nat :=
  ((List.range (events.length + 1)).map (fun k => inFlight (events.take k))).foldr max 0

/-! ## More sample inputs -/

/-- A host with one installation, at `A`, holding three records: `r1` and
`r3` decrypt, `r2` fails the authentication step after some output. -/
def sampleHost : Host :=
  { existsSync := fun p => p = js "A" || p = js "A/Local State" || p = js "A/leveldb"
    pathJoin := fun parts =>
      match parts with
      | [base, _] => base ++ js "/Local State"
      | base :: _ => base ++ js "/leveldb"
      | [] => []
    readLocalState := fun _ => some (some (js "RFBBUEk="))
    base64 := fun s => s
    unprotectData := fun bytes => some bytes
    readdirSync := fun _ => some [js "000003.log", js "LOCK"]
    matchEncrypted := fun _ => some [js "r1", js "r2", js "r3"]
    transform := fun _ e =>
      if e = js "r2" then .authFailure (js "half") else .done e (js "!")
    collectBrowserTokens := none }

/-- A freshly constructed aggregator. -/
def freshStatistics : Statistics := Statistics.new (js "2024-01-01T00:00:00.000Z")

/-- A `browserData` that reports one password. -/
def onePassword : BrowserData :=
  { passwords := some 1, cookies := none, autofills := none, cards := none, history := none,
    downloads := none, bookmarks := none }

/-- The bit position of each entry of `badgeFlags`, with its badge. -/
def badgeBits : List (Nat × JSString) :=
  [(0, js "Discord Staff"), (1, js "Discord Partner"), (2, js "HypeSquad Events"),
   (3, js "Bug Hunter Level 1"), (6, js "HypeSquad Bravery"),
   (7, js "HypeSquad Brilliance"), (8, js "HypeSquad Balance"),
   (9, js "Early Supporter"), (14, js "Bug Hunter Level 2"),
   (17, js "Verified Bot Developer")]

/-- The position of the first occurrence of a record in a list (the length
of the list when it does not occur). -/
def firstIndex (x : JSString) : List JSString → Nat
  | [] => 0
  | y :: ys => if y = x then 0 else firstIndex x ys + 1

/-! ## The aggregator: wrappers, `buildWebhookPayload`, and runs of operations -/

/-- `Statistics.addGame`. -/
def Statistics.addGame (st : Statistics) (name : JSString) : StatsOutcome :=
  st.addToCollection (js "games") name

/-- `Statistics.addExodus`. -/
def Statistics.addExodus (st : Statistics) (name : JSString) : StatsOutcome :=
  st.addToCollection (js "exodus") name

/-- `Statistics.addKeywordPassword`. -/
def Statistics.addKeywordPassword (st : Statistics) (keyword : JSString) : StatsOutcome :=
  st.addToCollection (js "keywordPasswords") keyword

/-- `Statistics.addVpn`. -/
def Statistics.addVpn (st : Statistics) (name : JSString) : StatsOutcome :=
  st.addToCollection (js "vpn") name

/-- `Statistics.addSysadmin`. -/
def Statistics.addSysadmin (st : Statistics) (name : JSString) : StatsOutcome :=
  st.addToCollection (js "sysadmin") name

/-- `Statistics.addExtension`. -/
def Statistics.addExtension (st : Statistics) (name : JSString) : StatsOutcome :=
  st.addToCollection (js "extensions") name

/-- `Statistics.addCold`. -/
def Statistics.addCold (st : Statistics) (name : JSString) : StatsOutcome :=
  st.addToCollection (js "colds") name

/-- `Statistics.addMnemonic`. -/
def Statistics.addMnemonic (st : Statistics) (mnemonic : JSString) : StatsOutcome :=
  st.addToCollection (js "mnemonics") mnemonic

/-- `Statistics.addMessenger`. -/
def Statistics.addMessenger (st : Statistics) (name : JSString) : StatsOutcome :=
  st.addToCollection (js "messengers") name

/-- `Statistics.addFile`. -/
def Statistics.addFile (st : Statistics) (name : JSString) : StatsOutcome :=
  st.addToCollection (js "files") name

/-- The object `buildWebhookPayload` hands to `JSON.stringify`: the system
embed when no account is recorded, the account embed of `accounts[0]`
otherwise (an account is an object, hence truthy). -/
def Statistics.webhookPayload (st : Statistics) (username hostname ip : JSString) : Payload :=
  let stats := st.getFormattedStats.1
  let discordAccount :=
    if (st.heap.discord st.data.discord).accounts.length > 0 then
      (st.heap.discord st.data.discord).accounts[0]?
    else none
  match discordAccount with
  | none =>
    let systemEmbed := Embed.system (some username) (some hostname) (some ip) stats
    { content := none, embeds := [systemEmbed], attachments := [] }
  | some account =>
    let embed := Embed.account account ip
    { content := none, embeds := [embed], attachments := [] }

/-- `Statistics.buildWebhookPayload`, with `JSON.stringify` as a function of
the object (the unused `_link` is left out): the text returned, and the
aggregator afterwards. -/
def Statistics.buildWebhookPayload (stringify : Payload → JSString) (st : Statistics)
    (username hostname ip : JSString) : JSString × Statistics :=
  (stringify (st.webhookPayload username hostname ip), st.getFormattedStats.2)

/-- A call of a method of the aggregator. -/
inductive StatsCall where
  | reset (now : JSString)
  | addBrowser (browserData : BrowserData)
  | addToCollection (collection item : JSString)
  | addGame (name : JSString)
  | addExodus (name : JSString)
  | addKeywordPassword (keyword : JSString)
  | addVpn (name : JSString)
  | addSysadmin (name : JSString)
  | addExtension (name : JSString)
  | addCold (name : JSString)
  | addMnemonic (mnemonic : JSString)
  | addMessenger (name : JSString)
  | addFile (name : JSString)
  | addDiscordAccount (account : Account)
  | addPassphrase (passphrase : Option JSString)
  | setSystemInfo (now : JSString) (systemInfo : SystemUpdate)
  | getFormattedStats
  | buildWebhookPayload (username hostname ip : JSString)
  | getRawData
  | exportToJson

/-- The aggregator after one call (after a call that raises, the aggregator
as the call left it); `stringifyData` and `stringifyPayload` are
`JSON.stringify` on the two kinds of object it is given. -/
def Statistics.call (stringifyData : DataContents → JSString)
    (stringifyPayload : Payload → JSString) (st : Statistics) : StatsCall → Statistics
  | .reset now => st.reset now
  | .addBrowser browserData => st.addBrowser browserData
  | .addToCollection collection item => (st.addToCollection collection item).after
  | .addGame name => (st.addGame name).after
  | .addExodus name => (st.addExodus name).after
  | .addKeywordPassword keyword => (st.addKeywordPassword keyword).after
  | .addVpn name => (st.addVpn name).after
  | .addSysadmin name => (st.addSysadmin name).after
  | .addExtension name => (st.addExtension name).after
  | .addCold name => (st.addCold name).after
  | .addMnemonic mnemonic => (st.addMnemonic mnemonic).after
  | .addMessenger name => (st.addMessenger name).after
  | .addFile name => (st.addFile name).after
  | .addDiscordAccount account => st.addDiscordAccount account
  | .addPassphrase passphrase => st.addPassphrase passphrase
  | .setSystemInfo now systemInfo => st.setSystemInfo now systemInfo
  | .getFormattedStats => st.getFormattedStats.2
  | .buildWebhookPayload username hostname ip =>
    (st.buildWebhookPayload stringifyPayload username hostname ip).2
  | .getRawData => st.getRawData.2
  | .exportToJson => (st.exportToJson stringifyData).2

/-- The aggregator after a sequence of calls. -/
def Statistics.run (stringifyData : DataContents → JSString)
    (stringifyPayload : Payload → JSString) (st : Statistics) (calls : List StatsCall) :
    Statistics :=
  calls.foldl (Statistics.call stringifyData stringifyPayload) st

/-- A `browserData` that reports `2^53` passwords. -/
def passwordsAtLimit : BrowserData :=
  { passwords := some 9007199254740992, cookies := none, autofills := none, cards := none,
    history := none, downloads := none, bookmarks := none }

/-! ## Lemmas on `Set` -/

theorem mem_foldl_setAdd {α : Type} [DecidableEq α] (xs : List α) (acc : List α) (x : α) :
    x ∈ xs.foldl setAdd acc ↔ x ∈ acc ∨ x ∈ xs := by
  induction xs generalizing acc with
  | nil => simp
  | cons y ys ih =>
    rw [List.foldl_cons, ih]
    unfold setAdd
    by_cases hy : y ∈ acc
    · simp only [hy, if_true, List.mem_cons]
      constructor
      · rintro (h | h)
        · exact Or.inl h
        · exact Or.inr (Or.inr h)
      · rintro (h | h | h)
        · exact Or.inl h
        · exact Or.inl (h ▸ hy)
        · exact Or.inr h
    · simp only [hy, if_false, List.mem_append, List.mem_singleton, List.mem_cons]
      tauto

theorem nodup_foldl_setAdd {α : Type} [DecidableEq α] (xs : List α) (acc : List α)
    (h : acc.Nodup) : (xs.foldl setAdd acc).Nodup := by
  induction xs generalizing acc with
  | nil => simpa using h
  | cons y ys ih =>
    rw [List.foldl_cons]
    apply ih
    unfold setAdd
    by_cases hy : y ∈ acc
    · simpa [hy] using h
    · simp only [hy, if_false]
      rw [List.nodup_append]
      refine ⟨h, List.nodup_singleton y, ?_⟩
      intro a ha hb
      rw [List.mem_singleton] at hb
      exact hy (hb ▸ ha)

theorem mem_newSet {α : Type} [DecidableEq α] (xs : List α) (x : α) :
    x ∈ newSet xs ↔ x ∈ xs := by
  unfold newSet
  rw [mem_foldl_setAdd]
  simp

theorem nodup_newSet {α : Type} [DecidableEq α] (xs : List α) : (newSet xs).Nodup :=
  nodup_foldl_setAdd xs [] List.nodup_nil

theorem length_newSet {α : Type} [DecidableEq α] (xs : List α) :
    (newSet xs).length = xs.toFinset.card := by
  rw [← List.toFinset_card_of_nodup (nodup_newSet xs)]
  congr 1
  ext x
  simp [mem_newSet]

theorem foldl_setAdd_of_nodup {α : Type} [DecidableEq α] (xs : List α) (acc : List α)
    (h : (acc ++ xs).Nodup) : xs.foldl setAdd acc = acc ++ xs := by
  induction xs generalizing acc with
  | nil => simp
  | cons y ys ih =>
    have hy : y ∉ acc := by
      intro hmem
      rw [List.nodup_append] at h
      exact h.2.2 hmem (List.mem_cons_self y ys)
    rw [List.foldl_cons]
    have hstep : setAdd acc y = acc ++ [y] := by
      unfold setAdd
      simp [hy]
    rw [hstep, ih]
    · simp
    · simpa using h

theorem newSet_of_nodup {α : Type} [DecidableEq α] (xs : List α) (h : xs.Nodup) :
    newSet xs = xs := by
  unfold newSet
  rw [foldl_setAdd_of_nodup xs [] (by simpa using h)]
  simp

/-! ## Lemmas on `collectAccounts` -/

theorem foldl_push_eq (rs : List (Option Account)) (acc : List Account) :
    rs.foldl (fun accounts r => match r with
      | some accountData => accounts ++ [accountData]
      | none => accounts) acc = acc ++ rs.filterMap id := by
  induction rs generalizing acc with
  | nil => simp
  | cons r rs ih =>
    rw [List.foldl_cons, ih]
    cases r <;> simp

theorem collectAccounts_eq (w : World) (allTokens : List JSString) :
    collectAccounts w allTokens = (uniqueTokensSet w allTokens).filterMap (accountTask w) := by
  unfold collectAccounts accountResults
  rw [foldl_push_eq, List.filterMap_map]
  simp

theorem accountTask_token (w : World) (token : JSString) (a : Account)
    (h : accountTask w token = some a) : a.token = token := by
  unfold accountTask at h
  split at h
  · dsimp only at h
    split at h
    · split at h
      · simp only [Option.some.injEq] at h
        rw [← h]
      · exact absurd h (by simp)
    · exact absurd h (by simp)
  · exact absurd h (by simp)

theorem accountTask_eq (w : World) (token : JSString) :
    accountTask w token =
      match getAccountInfo w token with
      | some d => if savesReturn w token d then some { data := d, token := token } else none
      | none => none := by
  unfold accountTask savesReturn
  cases getAccountInfo w token with
  | none => rfl
  | some d =>
    simp only
    by_cases h1 : w.save (.text token (js "Discord/" ++ getAccountFolderName d) (js "token.txt"))
    · by_cases h2 : w.save (.json d (js "Discord/" ++ getAccountFolderName d)
        (js "account_info.json"))
      · simp [h1, h2]
      · simp [h1, h2]
    · simp [h1]

/-! ## Deduplication and the per-record lookup in `collectAccounts` -/

/-- C1: when `TokenUtils.deduplicate` returns a list with the same elements as
its input, the number of records forwarded to enrichment (the size of
`uniqueTokensSet`) is the number of distinct values of the collected list; the
`Set` built on the deduplicated list has exactly the elements of that list,
its size is the size a single `Set` over the collected list has, and it is the
deduplicated list itself when that list has no repetition. -/
theorem uniqueTokensSet_size_eq_distinct (w : World) (allTokens : List JSString)
    (h : ∀ x, x ∈ w.deduplicate allTokens ↔ x ∈ allTokens) :
    (uniqueTokensSet w allTokens).length = allTokens.toFinset.card ∧
    (∀ x, x ∈ uniqueTokensSet w allTokens ↔ x ∈ w.deduplicate allTokens) ∧
    (uniqueTokensSet w allTokens).length = (newSet allTokens).length ∧
    ((w.deduplicate allTokens).Nodup →
      uniqueTokensSet w allTokens = w.deduplicate allTokens) := by
  have hcard : (uniqueTokensSet w allTokens).length = allTokens.toFinset.card := by
    unfold uniqueTokensSet
    rw [length_newSet]
    congr 1
    ext x
    simp [h x]
  refine ⟨hcard, ?_, ?_, ?_⟩
  · intro x
    exact mem_newSet _ x
  · rw [hcard, length_newSet]
  · intro hnodup
    exact newSet_of_nodup _ hnodup

/-- C1, at a collected list with one repeated record. -/
theorem uniqueTokensSet_size_eq_distinct_witness :
    (∀ x, x ∈ calmWorld.deduplicate [js "a", js "b", js "a"] ↔ x ∈ [js "a", js "b", js "a"]) ∧
    (uniqueTokensSet calmWorld [js "a", js "b", js "a"]).length = 2 :=
  ⟨fun x => mem_newSet _ x,
   (uniqueTokensSet_size_eq_distinct calmWorld [js "a", js "b", js "a"]
      (fun x => mem_newSet _ x)).1.trans (by decide)⟩

theorem collectAccounts_mem (w : World) (allTokens : List JSString) :
    ∀ a ∈ collectAccounts w allTokens,
      a.token ∈ uniqueTokensSet w allTokens ∧ accountTask w a.token = some a := by
  intro a ha
  rw [collectAccounts_eq, List.mem_filterMap] at ha
  obtain ⟨t, ht, hta⟩ := ha
  have := accountTask_token w t a hta
  rw [this]
  exact ⟨ht, hta⟩

theorem collectAccounts_nodup_tokens (w : World) (allTokens : List JSString) :
    ((collectAccounts w allTokens).map (fun a => a.token)).Nodup := by
  rw [collectAccounts_eq, List.map_filterMap]
  apply List.Nodup.filterMap _ (nodup_newSet _)
  intro t t' b hb hb'
  rw [Option.mem_def, Option.map_eq_some'] at hb hb'
  obtain ⟨a, ha, hab⟩ := hb
  obtain ⟨a', ha', hab'⟩ := hb'
  rw [← accountTask_token w t a ha, ← accountTask_token w t' a' ha', hab, hab']

/-- C2: the accounts returned by `collectAccounts` have pairwise distinct
tokens, and each of them is the result of the per-record task of its own
token, which is a member of the deduplicated record set. -/
theorem collectAccounts_tokens_distinct (w : World) (allTokens : List JSString) :
    ((collectAccounts w allTokens).map (fun a => a.token)).Nodup ∧
    ∀ a ∈ collectAccounts w allTokens,
      a.token ∈ uniqueTokensSet w allTokens ∧ accountTask w a.token = some a :=
  ⟨collectAccounts_nodup_tokens w allTokens, collectAccounts_mem w allTokens⟩

/-- C7, as stated, fails: a record whose lookup succeeds is absent from the
returned accounts when the file manager raises while its artifacts are saved
(the `catch` of line 135 turns that into `null`). -/
theorem collectAccounts_drops_looked_up_record :
    js "t" ∈ uniqueTokensSet fullDiskWorld [js "t"] ∧
    (getAccountInfo fullDiskWorld (js "t")).isSome = true ∧
    collectAccounts fullDiskWorld [js "t"] = [] := by
  decide

/-- C7, amended: `collectAccounts` is total in the lookup outcomes; a record
whose lookup fails, or whose artifacts cannot be saved, is absent from the
returned accounts; a record whose lookup succeeds and whose artifacts are saved
appears exactly once, as its profile with the record attached; so the accounts
are the survivors of the per-record task, in order, and at most as many as the
unique records. -/
theorem collectAccounts_survivors (w : World) (allTokens : List JSString) :
    collectAccounts w allTokens = (uniqueTokensSet w allTokens).filterMap (accountTask w) ∧
    (∀ t, getAccountInfo w t = none → ∀ a ∈ collectAccounts w allTokens, a.token ≠ t) ∧
    (∀ t d, getAccountInfo w t = some d → savesReturn w t d = false →
      ∀ a ∈ collectAccounts w allTokens, a.token ≠ t) ∧
    (∀ t ∈ uniqueTokensSet w allTokens, ∀ d, getAccountInfo w t = some d →
      savesReturn w t d = true →
      (collectAccounts w allTokens).filter (fun a => a.token = t) = [{ data := d, token := t }]) ∧
    (collectAccounts w allTokens).length ≤ (uniqueTokensSet w allTokens).length := by
  have hC2 := And.intro (collectAccounts_nodup_tokens w allTokens)
    (collectAccounts_mem w allTokens)
  refine ⟨collectAccounts_eq w allTokens, ?_, ?_, ?_, ?_⟩
  · intro t ht a ha hat
    have h := (hC2.2 a ha).2
    rw [hat, accountTask_eq, ht] at h
    exact absurd h (by simp)
  · intro t d ht hs a ha hat
    have h := (hC2.2 a ha).2
    rw [hat, accountTask_eq, ht] at h
    simp [hs] at h
  · intro t ht d hd hs
    have htask : accountTask w t = some { data := d, token := t } := by
      rw [accountTask_eq, hd]
      simp [hs]
    have hin : ({ data := d, token := t } : Account) ∈ collectAccounts w allTokens := by
      rw [collectAccounts_eq, List.mem_filterMap]
      exact ⟨t, ht, htask⟩
    have hnd : (collectAccounts w allTokens).Nodup := List.Nodup.of_map _ hC2.1
    have hfilter : (collectAccounts w allTokens).filter (fun a => a.token = t) =
        (collectAccounts w allTokens).filter (fun a => a = { data := d, token := t }) := by
      apply List.filter_congr
      intro a ha
      have h := (hC2.2 a ha).2
      by_cases hat : a.token = t
      · rw [hat, htask] at h
        simp only [Option.some.injEq] at h
        simp [hat, h]
      · have hne : a ≠ { data := d, token := t } := by
          intro he
          exact hat (by rw [he])
        simp [hat, hne]
    rw [hfilter]
    have hcount := List.count_eq_one_of_mem hnd hin
    have hx : ∀ b ∈ (collectAccounts w allTokens).filter (fun a => a = { data := d, token := t }),
        b = { data := d, token := t } := by
      intro b hb
      simpa using (List.mem_filter.mp hb).2
    have hlen : ((collectAccounts w allTokens).filter
        (fun a => a = { data := d, token := t })).length = 1 := by
      rw [← hcount, List.count, List.countP_eq_length_filter]
      congr 1
    rw [List.eq_replicate_of_mem hx, hlen]
    rfl
  · rw [collectAccounts_eq]
    exact List.length_filterMap_le _ _

/-! ## Batching and delivery -/

theorem embeddedAccounts_accountPayload (accounts : List Account) (ip : Option JSString)
    (uploadResult : Option UploadResult) (zipPassword : Option JSString) :
    embeddedAccounts (.payload (accountPayload accounts ip uploadResult zipPassword)) =
      accounts.take 10 := by
  have hmap : ∀ l : List Account,
      (l.map (fun account => createAccountEmbed account ip)).filterMap
        (fun e => match e with
          | .account a _ => some a
          | _ => none) = l := by
    intro l
    induction l with
    | nil => rfl
    | cons x xs ih =>
      simp only [List.map_cons, createAccountEmbed] at ih ⊢
      rw [List.filterMap_cons_some (by rfl), ih]
  unfold embeddedAccounts accountPayload accountEmbeds
  dsimp only
  split_ifs
  · rw [List.filterMap_append, hmap]
    simp [fileEmbed]
  · exact hmap _

theorem sendWebhook_configured (svc : Service) (w : World) (payload : Payload)
    (hurl : truthy svc.webhookUrl = true)
    (hne : svc.webhookUrl ≠ some (js "%WEBHOOK%")) :
    sendWebhook svc w payload =
      match w.post { url := svc.webhookUrl, body := .payload payload } with
      | .ok _ =>
        { result := .ok true, posts := [{ url := svc.webhookUrl, body := .payload payload }] }
      | .error message =>
        { result := .error (.NetworkError (js "Failed to send webhook: " ++ message)),
          posts := [{ url := svc.webhookUrl, body := .payload payload }] } := by
  unfold sendWebhook
  have hb : (svc.webhookUrl == some (js "%WEBHOOK%")) = false := by
    simpa using hne
  simp [hurl, hb]

/-- C3, as stated, fails: eleven profiles are handed over in one delivery, not
in the two that `ceil(11/10)` asks for, and the eleventh profile is in no
delivery although the operation returns `true`. -/
theorem sendAccountEmbeds_eleven_single_delivery :
    deliveriesNeeded 11 = 2 ∧
    (sendAccountEmbeds liveService calmWorld (sampleAccounts 11) none none none).posts.length = 1 ∧
    deliveredAccounts
      (sendAccountEmbeds liveService calmWorld (sampleAccounts 11) none none none) =
        sampleAccounts 10 ∧
    sampleAccount [10] ∈ sampleAccounts 11 ∧
    sampleAccount [10] ∉ deliveredAccounts
      (sendAccountEmbeds liveService calmWorld (sampleAccounts 11) none none none) ∧
    (sendAccountEmbeds liveService calmWorld (sampleAccounts 11) none none none).result =
      .ok true := by
  decide

/-- C3, amended: for a non-empty account list and a configured endpoint,
`sendAccountEmbeds` makes exactly one delivery, whose payload carries the first
ten profiles of the list (all of them when there are at most ten); no further
delivery is made for the profiles after the tenth. -/
theorem sendAccountEmbeds_one_delivery (svc : Service) (w : World) (accounts : List Account)
    (ip : Option JSString) (uploadResult : Option UploadResult) (zipPassword : Option JSString)
    (hacc : accounts ≠ []) (hurl : truthy svc.webhookUrl = true)
    (hne : svc.webhookUrl ≠ some (js "%WEBHOOK%")) :
    (sendAccountEmbeds svc w accounts ip uploadResult zipPassword).posts =
      [{ url := svc.webhookUrl,
         body := .payload (accountPayload accounts ip uploadResult zipPassword) }] ∧
    deliveredAccounts (sendAccountEmbeds svc w accounts ip uploadResult zipPassword) =
      accounts.take 10 ∧
    (accounts.length ≤ 10 →
      deliveredAccounts (sendAccountEmbeds svc w accounts ip uploadResult zipPassword) =
        accounts) := by
  have hlen : ¬ accounts.length = 0 := by
    intro h
    exact hacc (List.length_eq_zero.mp h)
  have hposts : (sendAccountEmbeds svc w accounts ip uploadResult zipPassword).posts =
      [{ url := svc.webhookUrl,
         body := .payload (accountPayload accounts ip uploadResult zipPassword) }] := by
    unfold sendAccountEmbeds
    simp only [hlen, if_false]
    rw [sendWebhook_configured svc w _ hurl hne]
    cases w.post (Request.mk svc.webhookUrl
      (.payload (accountPayload accounts ip uploadResult zipPassword))) <;> rfl
  have hdel : deliveredAccounts (sendAccountEmbeds svc w accounts ip uploadResult zipPassword) =
      accounts.take 10 := by
    unfold deliveredAccounts
    rw [hposts]
    simp [embeddedAccounts_accountPayload]
  refine ⟨hposts, hdel, ?_⟩
  intro hle
  rw [hdel, List.take_of_length_le hle]

/-- C3, amended, at a list of exactly ten profiles. -/
theorem sendAccountEmbeds_one_delivery_witness :
    sampleAccounts 10 ≠ [] ∧ truthy liveService.webhookUrl = true ∧
    liveService.webhookUrl ≠ some (js "%WEBHOOK%") ∧
    deliveredAccounts
      (sendAccountEmbeds liveService calmWorld (sampleAccounts 10) none none none) =
        sampleAccounts 10 :=
  ⟨by decide, by decide, by decide,
   (sendAccountEmbeds_one_delivery liveService calmWorld (sampleAccounts 10) none none none
      (by decide) (by decide) (by decide)).2.2 (by decide)⟩

/-- C4, at ten profiles and a local archive password: the payload handed to
`sendWebhook` has `content` null and no attachments, and its `embeds` array
has eleven entries, the ten account embeds and the file-information embed. -/
theorem accountPayload_eleven_embeds :
    (accountPayload (sampleAccounts 10) none none (some (js "pw"))).content = none ∧
    (accountPayload (sampleAccounts 10) none none (some (js "pw"))).attachments = [] ∧
    (accountPayload (sampleAccounts 10) none none (some (js "pw"))).embeds.length = 11 ∧
    (sendAccountEmbeds liveService calmWorld (sampleAccounts 10) none none
        (some (js "pw"))).posts =
      [{ url := liveService.webhookUrl,
         body := .payload (accountPayload (sampleAccounts 10) none none (some (js "pw"))) }] := by
  decide

/-- C5, as stated, fails: with the placeholder, an empty or an unset endpoint
`sendWebhook` returns `false`, not the success value `true`. -/
theorem sendWebhook_placeholder_returns_false :
    (sendWebhook placeholderService calmWorld
      { content := none, embeds := [], attachments := [] }).result = .ok false ∧
    (sendWebhook { liveService with webhookUrl := some (js "") } calmWorld
      { content := none, embeds := [], attachments := [] }).result = .ok false ∧
    (sendWebhook { liveService with webhookUrl := none } calmWorld
      { content := none, embeds := [], attachments := [] }).result = .ok false ∧
    (sendWebhook placeholderService calmWorld
      { content := none, embeds := [], attachments := [] }).result ≠ .ok true := by
  decide

/-- C5, amended: when the endpoint is unset, empty or the placeholder
`%WEBHOOK%`, `sendWebhook` makes no network call, does not raise, and returns
`false`. -/
theorem sendWebhook_unconfigured (svc : Service) (w : World) (payload : Payload)
    (h : truthy svc.webhookUrl = false ∨ svc.webhookUrl = some (js "%WEBHOOK%")) :
    (sendWebhook svc w payload).posts = [] ∧
    (sendWebhook svc w payload).result = .ok false := by
  unfold sendWebhook
  rcases h with h | h
  · simp [h]
  · simp [h]

/-- C5, amended, at the placeholder endpoint. -/
theorem sendWebhook_unconfigured_witness :
    (truthy placeholderService.webhookUrl = false ∨
      placeholderService.webhookUrl = some (js "%WEBHOOK%")) ∧
    (sendWebhook placeholderService offlineWorld
      { content := none, embeds := [], attachments := [] }).posts = [] :=
  ⟨Or.inr (by decide),
   (sendWebhook_unconfigured placeholderService offlineWorld
      { content := none, embeds := [], attachments := [] } (Or.inr (by decide))).1⟩

/-- C6: a failing network post is surfaced by every Reporter operation, and
none then returns `true`.  `sendWebhook`, with a configured endpoint, and
`sendFile` post once and raise a `NetworkError` that carries the message of
the failure; `sendAccountEmbeds`, with a non-empty list and a configured
endpoint, and `sendScreenshot`, with an existing file, post once and return
`false`.  On every other input these operations make no post at all. -/
theorem reporter_surfaces_post_failure (svc : Service) (w : World) :
    (∀ payload message, truthy svc.webhookUrl = true →
      svc.webhookUrl ≠ some (js "%WEBHOOK%") →
      w.post { url := svc.webhookUrl, body := .payload payload } = .error message →
      sendWebhook svc w payload =
        { result := .error (.NetworkError (js "Failed to send webhook: " ++ message)),
          posts := [{ url := svc.webhookUrl, body := .payload payload }] }) ∧
    (∀ filePath embed message,
      w.post { url := svc.webhookUrl, body := .form (embed.map (fun e => [e])) filePath } =
        .error message →
      sendFile svc w filePath embed =
        { result := .error (.NetworkError (js "Failed to send file to webhook: " ++ message)),
          posts :=
            [{ url := svc.webhookUrl, body := .form (embed.map (fun e => [e])) filePath }] }) ∧
    (∀ accounts ip uploadResult zipPassword message, accounts ≠ [] →
      truthy svc.webhookUrl = true → svc.webhookUrl ≠ some (js "%WEBHOOK%") →
      w.post { url := svc.webhookUrl,
               body := .payload (accountPayload accounts ip uploadResult zipPassword) } =
        .error message →
      sendAccountEmbeds svc w accounts ip uploadResult zipPassword =
        { result := .ok false,
          posts := [{ url := svc.webhookUrl,
                      body := .payload (accountPayload accounts ip uploadResult zipPassword) }] }) ∧
    (∀ screenshotPath message, truthy screenshotPath = true →
      w.existsSync (interpolate screenshotPath) = true →
      w.post { url := svc.webhookUrl, body := .form none (interpolate screenshotPath) } =
        .error message →
      sendScreenshot svc w screenshotPath =
        { result := .ok false,
          posts := [{ url := svc.webhookUrl, body := .form none (interpolate screenshotPath) }] }) ∧
    (∀ payload, (truthy svc.webhookUrl = false ∨ svc.webhookUrl = some (js "%WEBHOOK%")) →
      (sendWebhook svc w payload).posts = []) ∧
    (∀ accounts ip uploadResult zipPassword,
      (accounts = [] ∨ truthy svc.webhookUrl = false ∨
        svc.webhookUrl = some (js "%WEBHOOK%")) →
      (sendAccountEmbeds svc w accounts ip uploadResult zipPassword).posts = []) ∧
    (∀ screenshotPath,
      (truthy screenshotPath = false ∨ w.existsSync (interpolate screenshotPath) = false) →
      (sendScreenshot svc w screenshotPath).posts = []) := by
  have hweb : ∀ payload message, truthy svc.webhookUrl = true →
      svc.webhookUrl ≠ some (js "%WEBHOOK%") →
      w.post { url := svc.webhookUrl, body := .payload payload } = .error message →
      sendWebhook svc w payload =
        { result := .error (.NetworkError (js "Failed to send webhook: " ++ message)),
          posts := [{ url := svc.webhookUrl, body := .payload payload }] } := by
    intro payload message hurl hne hpost
    rw [sendWebhook_configured svc w payload hurl hne, hpost]
  have hoff : ∀ payload,
      (truthy svc.webhookUrl = false ∨ svc.webhookUrl = some (js "%WEBHOOK%")) →
      (sendWebhook svc w payload).posts = [] := by
    intro payload h
    unfold sendWebhook
    rcases h with h | h
    · simp [h]
    · simp [h]
  refine ⟨hweb, ?_, ?_, ?_, hoff, ?_, ?_⟩
  · intro filePath embed message hpost
    unfold sendFile
    simp only [hpost]
  · intro accounts ip uploadResult zipPassword message hacc hurl hne hpost
    have hlen : ¬ accounts.length = 0 := fun h => hacc (List.length_eq_zero.mp h)
    unfold sendAccountEmbeds
    simp only [hlen, if_false]
    rw [hweb _ message hurl hne hpost]
  · intro screenshotPath message hpath hex hpost
    unfold sendScreenshot
    simp only [hpath, hex, hpost]
    rfl
  · intro accounts ip uploadResult zipPassword h
    unfold sendAccountEmbeds
    by_cases hacc : accounts = []
    · simp [hacc]
    · have hlen : ¬ accounts.length = 0 := fun hl => hacc (List.length_eq_zero.mp hl)
      have hcfg : truthy svc.webhookUrl = false ∨ svc.webhookUrl = some (js "%WEBHOOK%") := by
        rcases h with h | h | h
        · exact absurd h hacc
        · exact Or.inl h
        · exact Or.inr h
      have hno := hoff (accountPayload accounts ip uploadResult zipPassword) hcfg
      simp only [hlen, if_false]
      cases hres : (sendWebhook svc w
          (accountPayload accounts ip uploadResult zipPassword)).result <;> exact hno
  · intro screenshotPath h
    unfold sendScreenshot
    rcases h with h | h
    · simp [h]
    · simp [h]

/-- C6, in a world whose every post times out: the two errors raised and the
two `false` returned. -/
theorem reporter_surfaces_post_failure_witness :
    (sendWebhook liveService offlineWorld
      { content := none, embeds := [], attachments := [] }).result =
        .error (.NetworkError (js "Failed to send webhook: timeout")) ∧
    (sendFile liveService offlineWorld (js "out.zip") none).result =
        .error (.NetworkError (js "Failed to send file to webhook: timeout")) ∧
    (sendAccountEmbeds liveService offlineWorld (sampleAccounts 2) none none none).result =
      .ok false ∧
    (sendScreenshot liveService offlineWorld (some (js "shot.png"))).result = .ok false :=
  ⟨(congrArg Outcome.result
      ((reporter_surfaces_post_failure liveService offlineWorld).1
        { content := none, embeds := [], attachments := [] } (js "timeout")
        (by decide) (by decide) rfl)).trans (by decide),
   (congrArg Outcome.result
      ((reporter_surfaces_post_failure liveService offlineWorld).2.1
        (js "out.zip") none (js "timeout") rfl)).trans (by decide),
   congrArg Outcome.result
      ((reporter_surfaces_post_failure liveService offlineWorld).2.2.1
        (sampleAccounts 2) none none none (js "timeout") (by decide) (by decide) (by decide)
        rfl),
   congrArg Outcome.result
      ((reporter_surfaces_post_failure liveService offlineWorld).2.2.2.1
        (some (js "shot.png")) (js "timeout") (by decide) rfl rfl)⟩

/-! ## The fallback report -/

/-- C8: `ensureDiscordFolderExists` calls the file manager for the fallback
report exactly when `uniqueTokenCount` is not 0 and `accountCount` is 0, with
the report as its only write; with zero records it writes nothing; and it never
raises to its caller, also when the file manager raises. -/
theorem ensureDiscordFolderExists_fallback (svc : Service) (w : World)
    (accountCount uniqueTokenCount : Nat) :
    ((ensureDiscordFolderExists svc w accountCount uniqueTokenCount).writes =
        [FileWrite.text (infoMessage svc w accountCount uniqueTokenCount) (js "Discord")
          (js "Tokens_Found_But_Not_Processed.txt")] ↔
      (uniqueTokenCount ≠ 0 ∧ accountCount = 0)) ∧
    ((ensureDiscordFolderExists svc w accountCount uniqueTokenCount).writes = [] ↔
      ¬ (uniqueTokenCount ≠ 0 ∧ accountCount = 0)) ∧
    (ensureDiscordFolderExists svc w accountCount 0).writes = [] ∧
    (ensureDiscordFolderExists svc w accountCount uniqueTokenCount).raised = false := by
  unfold ensureDiscordFolderExists
  by_cases hu : uniqueTokenCount = 0
  · simp [hu]
  · by_cases ha : accountCount = 0
    · subst ha
      by_cases hs : w.save (FileWrite.text (infoMessage svc w 0 uniqueTokenCount)
        (js "Discord") (js "Tokens_Found_But_Not_Processed.txt")) = true
      · simp [hu, hs]
      · simp [hu, hs]
    · simp [hu, ha]

/-! ## The folder name -/

theorem replaceUnsafe_safe (s : JSString) : ∀ c ∈ replaceUnsafe s, c ∉ unsafeChars := by
  intro c hc
  unfold replaceUnsafe at hc
  rw [List.mem_map] at hc
  obtain ⟨d, _, hd⟩ := hc
  by_cases h : d ∈ unsafeChars
  · rw [if_pos h] at hd
    rw [← hd]
    decide
  · rw [if_neg h] at hd
    rw [← hd]
    exact h

theorem getAccountFolderName_eq (a : AccountData) :
    getAccountFolderName a =
      if (sanitizedIdentifier a).length > 50 then (sanitizedIdentifier a).take 47 ++ js "..."
      else sanitizedIdentifier a := rfl

/-- C9: the folder name returned by `getAccountFolderName` contains none of
the characters `< > : " / \ | ? *`; the replacement step keeps the length of
the display identifier and, position by position, writes `_` for each of those
characters and keeps every other character; and the folder name agrees with the
replaced identifier at every position the length cap leaves in place. -/
theorem getAccountFolderName_safe (a : AccountData) :
    (∀ c ∈ getAccountFolderName a, c ∉ unsafeChars) ∧
    unsafeChars = [60, 62, 58, 34, 47, 92, 124, 63, 42] ∧
    (sanitizedIdentifier a).length = (displayIdentifier a).length ∧
    (∀ i : Nat, (sanitizedIdentifier a)[i]? =
      (displayIdentifier a)[i]?.map (fun c => if c ∈ unsafeChars then 95 else c)) ∧
    (∀ i : Nat, ((displayIdentifier a).length ≤ 50 ∨ i < 47) →
      (getAccountFolderName a)[i]? =
        (displayIdentifier a)[i]?.map (fun c => if c ∈ unsafeChars then 95 else c)) := by
  have hget : ∀ i : Nat, (sanitizedIdentifier a)[i]? =
      (displayIdentifier a)[i]?.map (fun c => if c ∈ unsafeChars then 95 else c) := by
    intro i
    unfold sanitizedIdentifier replaceUnsafe
    rw [List.getElem?_map]
    rfl
  have hlen : (sanitizedIdentifier a).length = (displayIdentifier a).length := by
    unfold sanitizedIdentifier replaceUnsafe
    exact List.length_map _ _
  refine ⟨?_, by decide, hlen, hget, ?_⟩
  · intro c hc
    rw [getAccountFolderName_eq] at hc
    split_ifs at hc
    · rw [List.mem_append] at hc
      rcases hc with hc | hc
      · exact replaceUnsafe_safe _ c (List.mem_of_mem_take hc)
      · have hdot : c = 46 := by
          have h3 : js "..." = [46, 46, 46] := by decide
          rw [h3] at hc
          simpa using hc
        rw [hdot]
        decide
    · exact replaceUnsafe_safe _ c hc
  · intro i hi
    rw [← hget, getAccountFolderName_eq]
    split_ifs with hlong
    · rcases hi with hi | hi
      · omega
      · have htake : i < ((sanitizedIdentifier a).take 47).length := by
          rw [List.length_take]
          omega
        rw [List.getElem?_append_left htake, List.getElem?_take_of_lt hi]
    · rfl

/-- C10: the folder name returned by `getAccountFolderName` has length at most
50: when the sanitized identifier is longer than 50 it is its first 47
characters followed by `...`, of length exactly 50, and otherwise it is the
sanitized identifier unchanged. -/
theorem getAccountFolderName_length (a : AccountData) :
    (getAccountFolderName a).length ≤ 50 ∧
    getAccountFolderName a =
      (if (sanitizedIdentifier a).length > 50 then (sanitizedIdentifier a).take 47 ++ js "..."
       else sanitizedIdentifier a) ∧
    (getAccountFolderName a).length =
      (if (sanitizedIdentifier a).length > 50 then 50 else (sanitizedIdentifier a).length) ∧
    js "..." = [46, 46, 46] := by
  have h3 : js "..." = [46, 46, 46] := by decide
  have hlen : (getAccountFolderName a).length =
      (if (sanitizedIdentifier a).length > 50 then 50 else (sanitizedIdentifier a).length) := by
    rw [getAccountFolderName_eq]
    split_ifs with hlong
    · rw [List.length_append, List.length_take, h3]
      simp only [List.length_cons, List.length_nil]
      omega
    · rfl
  refine ⟨?_, getAccountFolderName_eq a, hlen, h3⟩
  rw [hlen]
  split_ifs with hlong
  · exact le_refl 50
  · omega

/-! ## The record source -/

theorem decryptStep_eq (h : Host) (masterKey : List Nat) (tokens : List JSString)
    (e : JSString) :
    decryptStep h masterKey tokens e = tokens ++ (plaintextOf h masterKey e).toList := by
  unfold decryptStep plaintextOf
  cases h.transform masterKey e with
  | malformed => simp
  | updateRaised => simp
  | authFailure u => simp
  | done u f =>
    dsimp only
    by_cases hempty : u ++ f = []
    · rw [hempty]
      simp
    · have hne : (u ++ f).isEmpty = false := by
        cases hl : u ++ f with
        | nil => exact absurd hl hempty
        | cons _ _ => rfl
      rw [hne, if_neg hempty]
      simp

theorem foldl_decrypt_eq (h : Host) (masterKey : List Nat) (encryptedTokens : List JSString)
    (acc : List JSString) :
    encryptedTokens.foldl (decryptStep h masterKey) acc =
      acc ++ encryptedTokens.filterMap (plaintextOf h masterKey) := by
  induction encryptedTokens generalizing acc with
  | nil => simp
  | cons e es ih =>
    rw [List.foldl_cons, ih, decryptStep_eq]
    cases hp : plaintextOf h masterKey e with
    | none => rw [List.filterMap_cons_none hp]; simp
    | some v => rw [List.filterMap_cons_some hp]; simp

theorem decryptTokens_eq (h : Host) (masterKey : List Nat) (encryptedTokens : List JSString) :
    decryptTokens h encryptedTokens masterKey =
      encryptedTokens.filterMap (plaintextOf h masterKey) := by
  unfold decryptTokens
  rw [foldl_decrypt_eq]
  simp

/-- C11: with the transform an arbitrary function of key and record,
`decryptTokens` is total (it never raises) and returns exactly the non-empty
plaintexts of the records whose transform returns at every step, in input
order: a record whose transform raises at any step, the authentication step
after some output included, adds nothing and leaves the result for the other
records as it is, so the result is at most as long as the input. -/
theorem decryptTokens_fail_closed (h : Host) (masterKey : List Nat)
    (encryptedTokens : List JSString) :
    decryptTokens h encryptedTokens masterKey =
      encryptedTokens.filterMap (plaintextOf h masterKey) ∧
    (∀ e updated final, h.transform masterKey e = .done updated final →
      plaintextOf h masterKey e = if updated ++ final = [] then none else some (updated ++ final)) ∧
    (∀ e, (∀ updated final, h.transform masterKey e ≠ .done updated final) →
      plaintextOf h masterKey e = none ∧
      ∀ before after, decryptTokens h (before ++ e :: after) masterKey =
        decryptTokens h (before ++ after) masterKey) ∧
    (∀ e updated, h.transform masterKey e = .authFailure updated →
      decryptTokens h [e] masterKey = []) ∧
    (∀ before after, decryptTokens h (before ++ after) masterKey =
      decryptTokens h before masterKey ++ decryptTokens h after masterKey) ∧
    (∀ p ∈ decryptTokens h encryptedTokens masterKey, p ≠ []) ∧
    (decryptTokens h encryptedTokens masterKey).length ≤ encryptedTokens.length := by
  have hfail : ∀ e, (∀ updated final, h.transform masterKey e ≠ .done updated final) →
      plaintextOf h masterKey e = none := by
    intro e hne
    unfold plaintextOf
    cases hrun : h.transform masterKey e with
    | done u f => exact absurd hrun (hne u f)
    | malformed => rfl
    | updateRaised => rfl
    | authFailure u => rfl
  refine ⟨decryptTokens_eq h masterKey encryptedTokens, ?_, ?_, ?_, ?_, ?_, ?_⟩
  · intro e updated final hrun
    unfold plaintextOf
    rw [hrun]
  · intro e hne
    refine ⟨hfail e hne, ?_⟩
    intro before after
    rw [decryptTokens_eq, decryptTokens_eq, List.filterMap_append, List.filterMap_append,
      List.filterMap_cons_none (hfail e hne)]
  · intro e updated hrun
    rw [decryptTokens_eq]
    have : plaintextOf h masterKey e = none := by
      unfold plaintextOf
      rw [hrun]
    simp [this]
  · intro before after
    rw [decryptTokens_eq, decryptTokens_eq, decryptTokens_eq, List.filterMap_append]
  · intro p hp
    rw [decryptTokens_eq, List.mem_filterMap] at hp
    obtain ⟨e, _, he⟩ := hp
    unfold plaintextOf at he
    cases hrun : h.transform masterKey e with
    | done u f =>
      rw [hrun] at he
      by_cases hempty : u ++ f = []
      · simp [hempty] at he
      · simp only [hempty, if_false, Option.some.injEq] at he
        rw [← he]
        exact hempty
    | malformed => rw [hrun] at he; exact absurd he (by simp)
    | updateRaised => rw [hrun] at he; exact absurd he (by simp)
    | authFailure u => rw [hrun] at he; exact absurd he (by simp)
  · rw [decryptTokens_eq]
    exact List.length_filterMap_le _ _

theorem collectLocation_eq (w : World) (h : Host) (tokens : List JSString) (p : JSString) :
    collectLocation w h tokens p = tokens ++ locationTokens w h p := by
  unfold collectLocation locationTokens
  cases hex : h.existsSync p with
  | false => simp
  | true =>
    cases hkey : getMasterKey h p with
    | none => simp
    | some key =>
      by_cases hlen : (getEncryptedTokens w h
          (h.pathJoin [p, js "Local Storage", js "leveldb"])).length = 0
      · have hnil := List.length_eq_zero.mp hlen
        simp [hnil, decryptTokens]
      · simp [hlen]

theorem foldl_locations_eq (w : World) (h : Host) (basePaths : List JSString)
    (acc : List JSString) :
    basePaths.foldl (collectLocation w h) acc =
      acc ++ basePaths.flatMap (locationTokens w h) := by
  induction basePaths generalizing acc with
  | nil => simp
  | cons p ps ih =>
    rw [List.foldl_cons, ih, collectLocation_eq, List.flatMap_cons, List.append_assoc]

theorem collectClientTokens_eq (w : World) (h : Host) (clientConfig : ClientConfig) :
    collectClientTokens w h clientConfig =
      clientConfig.basePaths.flatMap (locationTokens w h) := by
  unfold collectClientTokens
  rw [foldl_locations_eq]
  simp

theorem foldl_append_eq (lists : List (List JSString)) (acc : List JSString) :
    lists.foldl (fun allTokens clientTokens => allTokens ++ clientTokens) acc =
      acc ++ lists.flatMap id := by
  induction lists generalizing acc with
  | nil => simp
  | cons l ls ih =>
    rw [List.foldl_cons, ih, List.flatMap_cons, List.append_assoc]
    rfl

/-- C12: `collectClientTokens` is total (it never raises) and returns the
concatenation, in `basePaths` order, of what each location yields: the
decrypted records of a location that is present, has a key and has records;
nothing for a location that is absent, has no key or has no records; no
location changes what another one yields.  The array `allTokens` of
`collectAccounts` is the concatenation of the client results in the order of
`discordPaths`, followed by the browser tokens, which a raising browser
service leaves out. -/
theorem collectClientTokens_isolated (svc : Service) (w : World) (h : Host)
    (clientConfig : ClientConfig) :
    collectClientTokens w h clientConfig =
      clientConfig.basePaths.flatMap (locationTokens w h) ∧
    (∀ basePath, h.existsSync basePath = false → locationTokens w h basePath = []) ∧
    (∀ basePath, getMasterKey h basePath = none → locationTokens w h basePath = []) ∧
    (∀ basePath,
      getEncryptedTokens w h (h.pathJoin [basePath, js "Local Storage", js "leveldb"]) = [] →
      locationTokens w h basePath = []) ∧
    (∀ basePath masterKey, h.existsSync basePath = true →
      getMasterKey h basePath = some masterKey →
      locationTokens w h basePath =
        decryptTokens h
          (getEncryptedTokens w h (h.pathJoin [basePath, js "Local Storage", js "leveldb"]))
          masterKey) ∧
    (∀ name before after,
      collectClientTokens w h { name := name, basePaths := before ++ after } =
        collectClientTokens w h { name := name, basePaths := before } ++
        collectClientTokens w h { name := name, basePaths := after }) ∧
    collectAllTokens svc w h =
      svc.discordPaths.flatMap (fun entry => collectClientTokens w h entry.2) ++
        h.collectBrowserTokens.getD [] := by
  refine ⟨collectClientTokens_eq w h clientConfig, ?_, ?_, ?_, ?_, ?_, ?_⟩
  · intro basePath hex
    unfold locationTokens
    rw [hex]
  · intro basePath hkey
    unfold locationTokens
    rw [hkey]
    cases h.existsSync basePath <;> rfl
  · intro basePath hnil
    unfold locationTokens
    rw [hnil]
    cases h.existsSync basePath <;> cases getMasterKey h basePath <;> rfl
  · intro basePath masterKey hex hkey
    unfold locationTokens
    rw [hex, hkey]
  · intro name before after
    rw [collectClientTokens_eq, collectClientTokens_eq, collectClientTokens_eq]
    simp
  · unfold collectAllTokens
    simp only
    rw [foldl_append_eq]
    cases h.collectBrowserTokens with
    | none => simp [List.flatMap_map]
    | some browserTokens => simp [List.flatMap_map]

/-! ## The aggregator -/

theorem roundToDouble_exact (n : Nat) (h : n ≤ 9007199254740992) : roundToDouble n = n := by
  by_cases hlt : n < 9007199254740992
  · have hgap : doubleGap 1024 n 1 = 1 := by
      show (if n / 1 < 9007199254740992 then 1 else doubleGap 1023 n (2 * 1)) = 1
      rw [Nat.div_one, if_pos hlt]
    unfold roundToDouble
    simp only [hgap, Nat.mod_one, Nat.sub_zero]
    simp
  · have heq : n = 9007199254740992 := by omega
    subst heq
    decide

theorem jsAdd_exact (a b : Nat) (h : a + b ≤ 9007199254740992) : jsAdd a b = a + b :=
  roundToDouble_exact (a + b) h

/-- C13, as stated, fails: the counters are doubles, so a counter that has
reached `2^53` is left as it is by an `addBrowser` that supplies 1, where the
claim has it become `2^53 + 1`. -/
theorem addBrowser_rounds_beyond_exact_range :
    (freshStatistics.addBrowser passwordsAtLimit).browsers.passwords = 9007199254740992 ∧
    passwordsAtLimit.passwords = some 9007199254740992 ∧
    onePassword.passwords = some 1 ∧
    ((freshStatistics.addBrowser passwordsAtLimit).addBrowser onePassword).browsers.passwords =
      9007199254740992 ∧
    ((freshStatistics.addBrowser passwordsAtLimit).addBrowser onePassword).browsers.passwords ≠
      (freshStatistics.addBrowser passwordsAtLimit).browsers.passwords + 1 := by
  decide

/-- C13, amended: when no counter plus its supplied field exceeds `2^53`, the
range in which doubles hold every integer, after `addBrowser` each of the seven
counters is its previous value plus the supplied field, an absent field
counting as 0, so no counter decreases; the collections, the system part and
the discord part are as before, and `this.data` holds the same references. -/
theorem addBrowser_additive_in_range (st : Statistics) (browserData : BrowserData)
    (hrange :
      st.browsers.passwords + browserData.passwords.getD 0 ≤ 9007199254740992 ∧
      st.browsers.cookies + browserData.cookies.getD 0 ≤ 9007199254740992 ∧
      st.browsers.autofills + browserData.autofills.getD 0 ≤ 9007199254740992 ∧
      st.browsers.cards + browserData.cards.getD 0 ≤ 9007199254740992 ∧
      st.browsers.history + browserData.history.getD 0 ≤ 9007199254740992 ∧
      st.browsers.downloads + browserData.downloads.getD 0 ≤ 9007199254740992 ∧
      st.browsers.bookmarks + browserData.bookmarks.getD 0 ≤ 9007199254740992) :
    (st.addBrowser browserData).browsers =
      { passwords := st.browsers.passwords + browserData.passwords.getD 0
        cookies := st.browsers.cookies + browserData.cookies.getD 0
        autofills := st.browsers.autofills + browserData.autofills.getD 0
        cards := st.browsers.cards + browserData.cards.getD 0
        history := st.browsers.history + browserData.history.getD 0
        downloads := st.browsers.downloads + browserData.downloads.getD 0
        bookmarks := st.browsers.bookmarks + browserData.bookmarks.getD 0 } ∧
    (st.browsers.passwords ≤ (st.addBrowser browserData).browsers.passwords ∧
      st.browsers.cookies ≤ (st.addBrowser browserData).browsers.cookies ∧
      st.browsers.autofills ≤ (st.addBrowser browserData).browsers.autofills ∧
      st.browsers.cards ≤ (st.addBrowser browserData).browsers.cards ∧
      st.browsers.history ≤ (st.addBrowser browserData).browsers.history ∧
      st.browsers.downloads ≤ (st.addBrowser browserData).browsers.downloads ∧
      st.browsers.bookmarks ≤ (st.addBrowser browserData).browsers.bookmarks) ∧
    (st.addBrowser browserData).collections = st.collections ∧
    (st.addBrowser browserData).system = st.system ∧
    (st.addBrowser browserData).discord = st.discord ∧
    (st.addBrowser browserData).data = st.data := by
  obtain ⟨h1, h2, h3, h4, h5, h6, h7⟩ := hrange
  have hb : (st.addBrowser browserData).browsers =
      { passwords := st.browsers.passwords + browserData.passwords.getD 0
        cookies := st.browsers.cookies + browserData.cookies.getD 0
        autofills := st.browsers.autofills + browserData.autofills.getD 0
        cards := st.browsers.cards + browserData.cards.getD 0
        history := st.browsers.history + browserData.history.getD 0
        downloads := st.browsers.downloads + browserData.downloads.getD 0
        bookmarks := st.browsers.bookmarks + browserData.bookmarks.getD 0 } := by
    simp only [Statistics.browsers] at h1 h2 h3 h4 h5 h6 h7
    simp only [Statistics.addBrowser, Statistics.browsers, Function.update_same,
      jsAdd_exact _ _ h1, jsAdd_exact _ _ h2, jsAdd_exact _ _ h3, jsAdd_exact _ _ h4,
      jsAdd_exact _ _ h5, jsAdd_exact _ _ h6, jsAdd_exact _ _ h7]
  refine ⟨hb, ?_, rfl, rfl, rfl, rfl⟩
  rw [hb]
  simp

/-- C13, amended, at a new aggregator and one password. -/
theorem addBrowser_additive_in_range_witness :
    (freshStatistics.browsers.passwords + onePassword.passwords.getD 0 ≤ 9007199254740992 ∧
      freshStatistics.browsers.cookies + onePassword.cookies.getD 0 ≤ 9007199254740992 ∧
      freshStatistics.browsers.autofills + onePassword.autofills.getD 0 ≤ 9007199254740992 ∧
      freshStatistics.browsers.cards + onePassword.cards.getD 0 ≤ 9007199254740992 ∧
      freshStatistics.browsers.history + onePassword.history.getD 0 ≤ 9007199254740992 ∧
      freshStatistics.browsers.downloads + onePassword.downloads.getD 0 ≤ 9007199254740992 ∧
      freshStatistics.browsers.bookmarks + onePassword.bookmarks.getD 0 ≤ 9007199254740992) ∧
    (freshStatistics.addBrowser onePassword).browsers.passwords = 1 :=
  ⟨by decide,
   (congrArg BrowserCounts.passwords
      (addBrowser_additive_in_range freshStatistics onePassword (by decide)).1).trans
      (by decide)⟩

/-- C14: `getRawData`, `getFormattedStats` and `exportToJson` leave the
aggregator as it is, and a second call right after the first returns the same
result. -/
theorem snapshot_reads_pure (stringify : DataContents → JSString) (st : Statistics) :
    (st.getRawData.2 = st ∧ st.getRawData.2.getRawData.1 = st.getRawData.1) ∧
    (st.getFormattedStats.2 = st ∧
      st.getFormattedStats.2.getFormattedStats.1 = st.getFormattedStats.1) ∧
    ((st.exportToJson stringify).2 = st ∧
      ((st.exportToJson stringify).2.exportToJson stringify).1 =
        (st.exportToJson stringify).1) ∧
    (st.getRawData.2.getFormattedStats.1 = st.getFormattedStats.1 ∧
      (st.getFormattedStats.2.exportToJson stringify).1 = (st.exportToJson stringify).1 ∧
      st.getRawData.1.contents st.getRawData.2.heap = st.data.contents st.heap) :=
  ⟨⟨rfl, rfl⟩, ⟨rfl, rfl⟩, ⟨rfl, rfl⟩, ⟨rfl, rfl, rfl⟩⟩

/-- C15, as stated, fails: the snapshot of `getRawData` and that of
`getFormattedStats` hold references to the live `browsers` and `collections`
objects, so a later `addBrowser` or `addToCollection` shows through them. -/
theorem snapshot_sees_later_mutation :
    (freshStatistics.getRawData.1.contents freshStatistics.heap).browsers.passwords = 0 ∧
    (freshStatistics.getRawData.1.contents
      (freshStatistics.addBrowser onePassword).heap).browsers.passwords = 1 ∧
    (freshStatistics.heap.browsers freshStatistics.getFormattedStats.1.browsers).passwords = 0 ∧
    ((freshStatistics.addBrowser onePassword).heap.browsers
      freshStatistics.getFormattedStats.1.browsers).passwords = 1 ∧
    (freshStatistics.getRawData.1.contents freshStatistics.heap).collections.games = [] ∧
    (freshStatistics.getRawData.1.contents
      (freshStatistics.addToCollection (js "games") (js "g")).after.heap).collections.games =
        [js "g"] := by
  decide

/-- C15, amended: a later `addDiscordAccount` or `addPassphrase` leaves the
counters and the collections seen through a snapshot of `getRawData` or
`getFormattedStats` as they were when it was taken; after a later `addBrowser`
or `addToCollection` the snapshot shows the counters and the collections the
aggregator itself has then, since both hold the same objects. -/
theorem snapshot_shares_objects (st : Statistics) :
    (∀ account,
      (st.getRawData.1.contents (st.addDiscordAccount account).heap).browsers =
        (st.getRawData.1.contents st.heap).browsers ∧
      (st.getRawData.1.contents (st.addDiscordAccount account).heap).collections =
        (st.getRawData.1.contents st.heap).collections ∧
      (st.addDiscordAccount account).heap.browsers st.getFormattedStats.1.browsers =
        st.heap.browsers st.getFormattedStats.1.browsers ∧
      (st.addDiscordAccount account).heap.collections st.getFormattedStats.1.collections =
        st.heap.collections st.getFormattedStats.1.collections) ∧
    (∀ passphrase,
      (st.getRawData.1.contents (st.addPassphrase passphrase).heap).browsers =
        (st.getRawData.1.contents st.heap).browsers ∧
      (st.getRawData.1.contents (st.addPassphrase passphrase).heap).collections =
        (st.getRawData.1.contents st.heap).collections ∧
      (st.addPassphrase passphrase).heap.browsers st.getFormattedStats.1.browsers =
        st.heap.browsers st.getFormattedStats.1.browsers ∧
      (st.addPassphrase passphrase).heap.collections st.getFormattedStats.1.collections =
        st.heap.collections st.getFormattedStats.1.collections) ∧
    (∀ browserData,
      (st.getRawData.1.contents (st.addBrowser browserData).heap).browsers =
        (st.addBrowser browserData).browsers ∧
      (st.addBrowser browserData).heap.browsers st.getFormattedStats.1.browsers =
        (st.addBrowser browserData).browsers ∧
      (st.getRawData.1.contents (st.addBrowser browserData).heap).collections =
        (st.getRawData.1.contents st.heap).collections) ∧
    (∀ collection item,
      (st.getRawData.1.contents (st.addToCollection collection item).after.heap).collections =
        (st.addToCollection collection item).after.collections ∧
      (st.addToCollection collection item).after.heap.collections
          st.getFormattedStats.1.collections =
        (st.addToCollection collection item).after.collections ∧
      (st.getRawData.1.contents (st.addToCollection collection item).after.heap).browsers =
        (st.getRawData.1.contents st.heap).browsers) := by
  refine ⟨?_, ?_, ?_, ?_⟩
  · intro account
    exact ⟨rfl, rfl, rfl, rfl⟩
  · intro passphrase
    unfold Statistics.addPassphrase
    dsimp only
    split_ifs
    · exact ⟨rfl, rfl, rfl, rfl⟩
    · exact ⟨rfl, rfl, rfl, rfl⟩
  · intro browserData
    exact ⟨rfl, rfl, rfl⟩
  · intro collection item
    unfold Statistics.addToCollection
    cases lookupCollection collection with
    | own name => exact ⟨rfl, rfl, rfl⟩
    | inherited => exact ⟨rfl, rfl, rfl⟩
    | undefined => exact ⟨rfl, rfl, rfl⟩

/-- C16: after `reset`, whatever the aggregator held before, and after
construction, the seven counters are 0, the ten collections are empty, the
accounts and the passphrases are empty and `ip`, `hostname` and `username` are
null; `getFormattedStats` then reports the five totals and `accountCount` as 0
and `hasPassphrases` as false. -/
theorem reset_all_zero (now : JSString) (st : Statistics) :
    (st.reset now).browsers = BrowserCounts.zero ∧
    (st.reset now).collections = Collections.empty ∧
    (st.reset now).discord = { accounts := [], passphrases := [] } ∧
    (st.reset now).system =
      { ip := none, hostname := none, username := none, timestamp := now } ∧
    (st.reset now).getFormattedStats.1.summary =
      { totalPasswords := 0, totalCookies := 0, totalGames := 0, totalWallets := 0,
        totalDiscordAccounts := 0, timestamp := now } ∧
    (st.reset now).getFormattedStats.1.discord =
      { accountCount := 0, hasPassphrases := false } ∧
    (Statistics.new now).browsers = BrowserCounts.zero ∧
    (Statistics.new now).collections = Collections.empty ∧
    (Statistics.new now).discord = { accounts := [], passphrases := [] } ∧
    (Statistics.new now).system =
      { ip := none, hostname := none, username := none, timestamp := now } ∧
    BrowserCounts.zero =
      { passwords := 0, cookies := 0, autofills := 0, cards := 0, history := 0,
        downloads := 0, bookmarks := 0 } ∧
    Collections.empty =
      { games := [], exodus := [], keywordPasswords := [], vpn := [], sysadmin := [],
        extensions := [], colds := [], mnemonics := [], messengers := [], files := [] } := by
  have hb : ∀ s : Statistics, (s.reset now).browsers = BrowserCounts.zero := by
    intro s
    simp [Statistics.reset, Statistics.browsers]
  have hc : ∀ s : Statistics, (s.reset now).collections = Collections.empty := by
    intro s
    simp [Statistics.reset, Statistics.collections]
  have hd : ∀ s : Statistics,
      (s.reset now).discord = { accounts := [], passphrases := [] } := by
    intro s
    simp [Statistics.reset, Statistics.discord]
  have hs : ∀ s : Statistics, (s.reset now).system =
      { ip := none, hostname := none, username := none, timestamp := now } := by
    intro s
    simp [Statistics.reset, Statistics.system]
  refine ⟨hb st, hc st, hd st, hs st, ?_, ?_, hb _, hc _, hd _, hs _, rfl, rfl⟩
  · simp [Statistics.reset, Statistics.getFormattedStats, BrowserCounts.zero, Collections.empty]
  · simp [Statistics.reset, Statistics.getFormattedStats]

theorem lookupCollection_own (collection : JSString) (name : CollectionName)
    (h : lookupCollection collection = .own name) :
    (collection, name) ∈ collectionKeys := by
  unfold lookupCollection at h
  cases hl : collectionKeys.lookup collection with
  | none =>
    rw [hl] at h
    dsimp only at h
    split_ifs at h
  | some n =>
    rw [hl] at h
    simp only [Property.own.injEq] at h
    subst h
    have hsub := List.lookup_eq_some_iff.mp hl
    obtain ⟨l1, l2, heq, _⟩ := hsub
    rw [heq]
    simp

theorem addToCollection_known (st : Statistics) (collection item : JSString)
    (name : CollectionName) (h : lookupCollection collection = .own name) :
    (st.addToCollection collection item).raised = none ∧
    (st.addToCollection collection item).after.collections.get name =
      st.collections.get name ++ [item] ∧
    (∀ other, other ≠ name →
      (st.addToCollection collection item).after.collections.get other =
        st.collections.get other) ∧
    (st.addToCollection collection item).after.browsers = st.browsers ∧
    (st.addToCollection collection item).after.system = st.system ∧
    (st.addToCollection collection item).after.discord = st.discord ∧
    (st.addToCollection collection item).after.data = st.data := by
  unfold Statistics.addToCollection
  rw [h]
  refine ⟨rfl, ?_, ?_, rfl, rfl, rfl, rfl⟩
  · simp only [Statistics.collections, Function.update_same]
    cases name <;> rfl
  · intro other hne
    simp only [Statistics.collections, Function.update_same]
    cases name <;> cases other <;> first | rfl | exact absurd rfl hne

theorem addToCollection_unknown (st : Statistics) (collection item : JSString)
    (h : lookupCollection collection = .undefined) :
    (st.addToCollection collection item).raised = none ∧
    (st.addToCollection collection item).after = st := by
  unfold Statistics.addToCollection
  rw [h]
  exact ⟨rfl, rfl⟩

/-- C19, at the name `constructor`, which is none of the ten collections: the
property read finds the function inherited from `Object.prototype`, the test
of line 77 passes, and the call of `push` raises a `TypeError`; the aggregator
is left as it was. -/
theorem addToCollection_inherited_raises (st : Statistics) (item : JSString) :
    collectionKeys.lookup (js "constructor") = none ∧
    lookupCollection (js "constructor") = .inherited ∧
    (st.addToCollection (js "constructor") item).raised =
      some (.TypeError (js "this.data.collections[collection].push is not a function")) ∧
    (st.addToCollection (js "constructor") item).after = st := by
  have hl : lookupCollection (js "constructor") = .inherited := by decide
  refine ⟨by decide, hl, ?_, ?_⟩
  · unfold Statistics.addToCollection
    rw [hl]
  · unfold Statistics.addToCollection
    rw [hl]

/-! ## Badges -/

theorem land_two_pow (n k : Nat) : n &&& 2 ^ k = if n.testBit k then 2 ^ k else 0 := by
  apply Nat.eq_of_testBit_eq
  intro i
  rw [Nat.testBit_and, Nat.testBit_two_pow]
  by_cases h : k = i
  · subst h
    cases hb : n.testBit k <;> simp [Nat.testBit_two_pow_self]
  · cases hb : n.testBit k <;> simp [h, Nat.testBit_two_pow_of_ne h]

theorem land_two_pow_ne_zero (n k : Nat) : n &&& 2 ^ k ≠ 0 ↔ n.testBit k = true := by
  rw [land_two_pow]
  cases n.testBit k
  · simp
  · simp

theorem foldl_badges_eq (bits : Nat) (table : List (Nat × JSString)) (acc : List JSString) :
    table.foldl
      (fun badges entry => if bits &&& entry.1 ≠ 0 then badges ++ [entry.2] else badges) acc =
      acc ++ (table.filter (fun entry => bits &&& entry.1 ≠ 0)).map (fun entry => entry.2) := by
  induction table generalizing acc with
  | nil => simp
  | cons e es ih =>
    rw [List.foldl_cons, ih]
    by_cases hbit : bits &&& e.1 ≠ 0
    · rw [if_pos hbit, List.filter_cons_of_pos (by simpa using hbit)]
      simp
    · rw [if_neg hbit, List.filter_cons_of_neg (by simpa using hbit)]

theorem parseBadges_eq_filter (flags : Int) :
    parseBadges flags =
      (badgeBits.filter (fun b => (toUint32 flags).testBit b.1)).map (fun b => b.2) := by
  have htable : badgeFlags = badgeBits.map (fun b => (2 ^ b.1, b.2)) := by decide
  unfold parseBadges
  rw [foldl_badges_eq, htable, List.nil_append, List.filter_map, List.map_map]
  congr 1
  apply List.filter_congr
  intro b _
  simp only [Function.comp]
  by_cases hb : (toUint32 flags).testBit b.1 = true
  · simp [hb, (land_two_pow_ne_zero (toUint32 flags) b.1).mpr hb]
  · have hz : ¬ (toUint32 flags &&& 2 ^ b.1 ≠ 0) := fun h =>
      hb ((land_two_pow_ne_zero (toUint32 flags) b.1).mp h)
    simp only [hz, hb]
    simp

theorem toUint32_of_small (flags : Int) (h0 : 0 ≤ flags) (h1 : flags < 2147483648) :
    toUint32 flags = flags.toNat := by
  unfold toUint32
  rw [Int.emod_eq_of_lt h0 (by omega)]

/-- C20: for an integer `flags` with `0 ≤ flags < 2^31`, `parseBadges` returns
the badge names of exactly those of the ten table entries whose bit is set in
`flags`, each once and in the order of the table, which is ascending in the
flag value; two values that agree on the ten bits of the table give the same
result; and `parseBadges(0)` is the empty list. -/
theorem parseBadges_table_bits (flags : Int) (h0 : 0 ≤ flags) (h1 : flags < 2147483648) :
    parseBadges flags =
      (badgeBits.filter (fun b => flags.toNat.testBit b.1)).map (fun b => b.2) ∧
    badgeFlags = badgeBits.map (fun b => (2 ^ b.1, b.2)) ∧
    (badgeFlags.map (fun e => e.1)).Pairwise (fun a b => a < b) ∧
    badgeFlags.length = 10 ∧
    (parseBadges flags).Nodup ∧
    (∀ badge, badge ∈ parseBadges flags ↔
      ∃ b ∈ badgeBits, flags.toNat.testBit b.1 = true ∧ b.2 = badge) ∧
    (∀ other : Int, 0 ≤ other → other < 2147483648 →
      (∀ b ∈ badgeBits, other.toNat.testBit b.1 = flags.toNat.testBit b.1) →
      parseBadges other = parseBadges flags) ∧
    parseBadges 0 = [] := by
  have hmain : ∀ f : Int, 0 ≤ f → f < 2147483648 → parseBadges f =
      (badgeBits.filter (fun b => f.toNat.testBit b.1)).map (fun b => b.2) := by
    intro f hf0 hf1
    rw [parseBadges_eq_filter, toUint32_of_small f hf0 hf1]
  have hsub : (parseBadges flags).Sublist (badgeBits.map (fun b => b.2)) := by
    rw [hmain flags h0 h1]
    exact List.Sublist.map _ (List.filter_sublist _)
  have hnd : (badgeBits.map (fun b => b.2)).Nodup := by decide
  refine ⟨hmain flags h0 h1, by decide, by decide, by decide, hnd.sublist hsub, ?_, ?_, ?_⟩
  · intro badge
    rw [hmain flags h0 h1, List.mem_map]
    constructor
    · rintro ⟨b, hb, rfl⟩
      rw [List.mem_filter] at hb
      exact ⟨b, hb.1, hb.2, rfl⟩
    · rintro ⟨b, hb, hbit, rfl⟩
      exact ⟨b, List.mem_filter.mpr ⟨hb, hbit⟩, rfl⟩
  · intro other ho0 ho1 hagree
    rw [hmain other ho0 ho1, hmain flags h0 h1]
    congr 1
    apply List.filter_congr
    intro b hb
    rw [hagree b hb]
  · decide

/-- C20, at the flags value 65: bits 0 and 6. -/
theorem parseBadges_table_bits_witness :
    (0 : Int) ≤ 65 ∧ (65 : Int) < 2147483648 ∧
    parseBadges 65 = [js "Discord Staff", js "HypeSquad Bravery"] :=
  ⟨by decide, by decide,
   (parseBadges_table_bits 65 (by decide) (by decide)).1.trans (by decide)⟩

/-! ## Order of the lookups -/

theorem mem_stableDeduplicate (xs : List JSString) (x : JSString) :
    x ∈ stableDeduplicate xs ↔ x ∈ xs := by
  induction xs with
  | nil => simp [stableDeduplicate]
  | cons y ys ih =>
    simp only [stableDeduplicate, List.mem_cons, List.mem_filter, ih]
    by_cases hxy : x = y
    · simp [hxy]
    · simp [hxy]

theorem nodup_stableDeduplicate (xs : List JSString) : (stableDeduplicate xs).Nodup := by
  induction xs with
  | nil => simp [stableDeduplicate]
  | cons y ys ih =>
    simp only [stableDeduplicate, List.nodup_cons, List.mem_filter]
    refine ⟨?_, ih.filter _⟩
    rintro ⟨_, hne⟩
    simp at hne

theorem stableDeduplicate_first_occurrence (xs : List JSString) :
    (stableDeduplicate xs).Pairwise (fun a b => firstIndex a xs < firstIndex b xs) := by
  induction xs with
  | nil => simp [stableDeduplicate]
  | cons y ys ih =>
    simp only [stableDeduplicate, List.pairwise_cons]
    constructor
    · intro b hb
      rw [List.mem_filter] at hb
      have hne : y ≠ b := by
        intro h
        have := hb.2
        simp [h] at this
      simp only [firstIndex, if_true, if_neg hne]
      exact Nat.succ_pos _
    · have hfiltered : ((stableDeduplicate ys).filter (fun z => z ≠ y)).Pairwise
          (fun a b => firstIndex a ys < firstIndex b ys) := ih.sublist (List.filter_sublist _)
      apply List.Pairwise.imp_of_mem _ hfiltered
      intro a b ha hb hlt
      have hay : y ≠ a := by
        intro h
        have := (List.mem_filter.mp ha).2
        simp [h] at this
      have hby : y ≠ b := by
        intro h
        have := (List.mem_filter.mp hb).2
        simp [h] at this
      simp only [firstIndex, if_neg hay, if_neg hby]
      exact Nat.succ_lt_succ hlt

theorem foldl_settle_getElem? {β : Type} (values : List β) (order : List Nat)
    (slots : List (Option β)) (hlen : slots.length = values.length) (j : Nat) :
    (order.foldl
      (fun slots i =>
        match values[i]? with
        | some v => slots.set i (some v)
        | none => slots)
      slots)[j]? = if j ∈ order then values[j]?.map some else slots[j]? := by
  induction order generalizing slots with
  | nil => simp
  | cons i rest ih =>
    rw [List.foldl_cons]
    cases hv : values[i]? with
    | none =>
      dsimp only
      rw [ih slots hlen]
      by_cases hj : j ∈ rest
      · simp [hj]
      · by_cases hji : j = i
        · subst hji
          have hout : values.length ≤ j := by
            by_contra hlt
            rw [List.getElem?_eq_getElem (by omega)] at hv
            exact absurd hv (by simp)
          have hnone : slots[j]? = none := List.getElem?_eq_none (by omega)
          simp [hj, hv, hnone]
        · simp [hj, hji]
    | some v =>
      dsimp only
      have hi : i < values.length := by
        by_contra hge
        rw [List.getElem?_eq_none (by omega)] at hv
        exact absurd hv (by simp)
      rw [ih (slots.set i (some v)) (by rw [List.length_set]; exact hlen)]
      by_cases hj : j ∈ rest
      · simp [hj]
      · by_cases hji : j = i
        · subst hji
          rw [if_neg hj, List.getElem?_set]
          simp [hv, hlen, hi]
        · rw [if_neg hj, List.getElem?_set]
          have hij : ¬ i = j := fun h => hji h.symm
          simp [hij, hj, hji]

theorem settleAll_eq {β : Type} (values : List β) (order : List Nat)
    (hall : ∀ i, i < values.length → i ∈ order) :
    settleAll values order = values.map some := by
  apply List.ext_getElem?
  intro j
  unfold settleAll
  rw [foldl_settle_getElem? values order _ (List.length_replicate _ _), List.getElem?_map]
  by_cases hj : j < values.length
  · rw [if_pos (hall j hj)]
  · have h1 : values[j]? = none := List.getElem?_eq_none (by omega)
    have h2 : (List.replicate values.length (none : Option β))[j]? = none :=
      List.getElem?_eq_none (by rw [List.length_replicate]; omega)
    rw [h1, h2]
    simp

theorem foldl_push_settled (rs : List (Option Account)) (acc : List Account) :
    (rs.map some).foldl
      (fun accounts r => match r with
        | some (some accountData) => accounts ++ [accountData]
        | _ => accounts) acc = acc ++ rs.filterMap id := by
  induction rs generalizing acc with
  | nil => simp
  | cons r rs ih =>
    rw [List.map_cons, List.foldl_cons, ih]
    cases r <;> simp

theorem collectAccountsIn_eq (w : World) (allTokens : List JSString) (order : List Nat)
    (hall : ∀ i, i < (uniqueTokensSet w allTokens).length → i ∈ order) :
    collectAccountsIn w allTokens order = collectAccounts w allTokens := by
  have hlen : (accountResults w allTokens).length = (uniqueTokensSet w allTokens).length := by
    unfold accountResults
    exact List.length_map _ _
  unfold collectAccountsIn collectAccounts
  rw [settleAll_eq _ order (by rw [hlen]; exact hall), foldl_push_settled, foldl_push_eq]

theorem recordAccounts_accounts (st : Statistics) (accounts : List Account) :
    (recordAccounts st accounts).discord.accounts = st.discord.accounts ++ accounts := by
  unfold recordAccounts
  induction accounts generalizing st with
  | nil => simp
  | cons a rest ih =>
    rw [List.foldl_cons, ih]
    simp [Statistics.addDiscordAccount, Statistics.discord]

theorem collectAccounts_tokens_eq_filter (w : World) (allTokens : List JSString) :
    (collectAccounts w allTokens).map (fun a => a.token) =
      (uniqueTokensSet w allTokens).filter (fun t => (accountTask w t).isSome) := by
  rw [collectAccounts_eq]
  induction uniqueTokensSet w allTokens with
  | nil => rfl
  | cons t ts ih =>
    cases ht : accountTask w t with
    | none =>
      rw [List.filterMap_cons_none ht, List.filter_cons_of_neg (by simp [ht])]
      exact ih
    | some a =>
      rw [List.filterMap_cons_some ht, List.filter_cons_of_pos (by simp [ht]), List.map_cons,
        ih, accountTask_token w t a ht]

/-- C17: with `TokenUtils.deduplicate` keeping every record at its first
occurrence, the unique records are forwarded to enrichment in the order of
their first occurrence in the collected list; whatever order the lookups
settle in, `collectAccounts` returns the same accounts, their tokens are the
surviving unique records in that same relative order, and they are appended to
the statistics in that order. -/
theorem collectAccounts_stable_order (w : World) (allTokens : List JSString)
    (order : List Nat) (st : Statistics)
    (hstable : w.deduplicate allTokens = stableDeduplicate allTokens)
    (hsettled : ∀ i, i < (uniqueTokensSet w allTokens).length → i ∈ order) :
    (uniqueTokensSet w allTokens).Pairwise
      (fun a b => firstIndex a allTokens < firstIndex b allTokens) ∧
    (uniqueTokensSet w allTokens).Nodup ∧
    (∀ x, x ∈ uniqueTokensSet w allTokens ↔ x ∈ allTokens) ∧
    collectAccountsIn w allTokens order = collectAccounts w allTokens ∧
    (collectAccountsIn w allTokens order).map (fun a => a.token) =
      (uniqueTokensSet w allTokens).filter (fun t => (accountTask w t).isSome) ∧
    ((collectAccountsIn w allTokens order).map (fun a => a.token)).Pairwise
      (fun a b => firstIndex a allTokens < firstIndex b allTokens) ∧
    (recordAccounts st (collectAccountsIn w allTokens order)).discord.accounts =
      st.discord.accounts ++ collectAccounts w allTokens := by
  have hset : uniqueTokensSet w allTokens = stableDeduplicate allTokens := by
    unfold uniqueTokensSet
    rw [hstable]
    exact newSet_of_nodup _ (nodup_stableDeduplicate allTokens)
  have horder : (uniqueTokensSet w allTokens).Pairwise
      (fun a b => firstIndex a allTokens < firstIndex b allTokens) := by
    rw [hset]
    exact stableDeduplicate_first_occurrence allTokens
  have hin := collectAccountsIn_eq w allTokens order hsettled
  refine ⟨horder, nodup_newSet _, ?_, hin, ?_, ?_, ?_⟩
  · intro x
    rw [hset]
    exact mem_stableDeduplicate allTokens x
  · rw [hin]
    exact collectAccounts_tokens_eq_filter w allTokens
  · rw [hin, collectAccounts_tokens_eq_filter]
    exact horder.sublist (List.filter_sublist _)
  · rw [hin]
    exact recordAccounts_accounts st _

/-- C17, at three collected records with one repetition, the lookups
settling last to first. -/
theorem collectAccounts_stable_order_witness :
    calmWorld.deduplicate [js "b", js "a", js "b"] = stableDeduplicate [js "b", js "a", js "b"] ∧
    (∀ i, i < (uniqueTokensSet calmWorld [js "b", js "a", js "b"]).length → i ∈ [1, 0]) ∧
    collectAccountsIn calmWorld [js "b", js "a", js "b"] [1, 0] =
      collectAccounts calmWorld [js "b", js "a", js "b"] :=
  ⟨by decide, by decide,
   (collectAccounts_stable_order calmWorld [js "b", js "a", js "b"] [1, 0] freshStatistics
      (by decide) (by decide)).2.2.2.1⟩

/-! ## Lookups in flight -/

theorem le_foldr_max (xs : List Nat) (x : Nat) (h : x ∈ xs) : x ≤ xs.foldr max 0 := by
  induction xs with
  | nil => exact absurd h (List.not_mem_nil x)
  | cons y ys ih =>
    rw [List.foldr_cons]
    rcases List.mem_cons.mp h with rfl | h
    · exact le_max_left _ _
    · exact le_trans (ih h) (le_max_right _ _)

theorem foldr_max_le (xs : List Nat) (b : Nat) (h : ∀ x ∈ xs, x ≤ b) : xs.foldr max 0 ≤ b := by
  induction xs with
  | nil => exact Nat.zero_le b
  | cons y ys ih =>
    rw [List.foldr_cons]
    exact max_le (h y (List.mem_cons_self y ys))
      (ih (fun x hx => h x (List.mem_cons_of_mem y hx)))

theorem countP_dispatched (n : Nat) (order : List Nat) :
    ((List.range n).map LookupEvent.dispatched ++ order.map LookupEvent.settled).countP
      (fun e => match e with
        | .dispatched _ => true
        | .settled _ => false) = n := by
  rw [List.countP_append, List.countP_map, List.countP_map]
  have h1 : (List.range n).countP
      ((fun e => match e with
        | LookupEvent.dispatched _ => true
        | LookupEvent.settled _ => false) ∘ LookupEvent.dispatched) = n := by
    rw [List.countP_eq_length.mpr (by intro a _; rfl), List.length_range]
  have h2 : order.countP
      ((fun e => match e with
        | LookupEvent.dispatched _ => true
        | LookupEvent.settled _ => false) ∘ LookupEvent.settled) = 0 := by
    rw [List.countP_eq_zero]
    intro a _
    simp
  rw [h1, h2, Nat.add_zero]

/-- C18, as stated, fails: `collectAccounts` takes no concurrency limit; with
two unique records both lookups are in flight at once, which exceeds a limit
of one. -/
theorem lookups_exceed_limit_of_one :
    (uniqueTokensSet calmWorld [js "a", js "b"]).length = 2 ∧
    inFlight ((lookupEvents calmWorld [js "a", js "b"] [1, 0]).take 2) = 2 ∧
    peakInFlight (lookupEvents calmWorld [js "a", js "b"] [1, 0]) = 2 ∧
    ¬ peakInFlight (lookupEvents calmWorld [js "a", js "b"] [1, 0]) ≤ 1 := by
  decide

/-- C18, amended: during `collectAccounts` every lookup is dispatched before
any settles, so whatever order they settle in, the number of lookups in flight
reaches the number of unique records, and that number is its only bound. -/
theorem lookups_all_in_flight (w : World) (allTokens : List JSString) (order : List Nat) :
    inFlight ((lookupEvents w allTokens order).take (uniqueTokensSet w allTokens).length) =
      (uniqueTokensSet w allTokens).length ∧
    peakInFlight (lookupEvents w allTokens order) = (uniqueTokensSet w allTokens).length ∧
    (∀ k, inFlight ((lookupEvents w allTokens order).take k) ≤
      (uniqueTokensSet w allTokens).length) := by
  have htake : (lookupEvents w allTokens order).take (uniqueTokensSet w allTokens).length =
      (List.range (uniqueTokensSet w allTokens).length).map LookupEvent.dispatched := by
    unfold lookupEvents
    rw [List.take_append_of_le_length (by simp)]
    exact List.take_of_length_le (by simp)
  have hnow : inFlight ((lookupEvents w allTokens order).take
      (uniqueTokensSet w allTokens).length) = (uniqueTokensSet w allTokens).length := by
    rw [htake]
    unfold inFlight
    have h1 := countP_dispatched (uniqueTokensSet w allTokens).length []
    simp only [List.map_nil, List.append_nil] at h1
    rw [h1, List.countP_map]
    have h2 : (List.range (uniqueTokensSet w allTokens).length).countP
        ((fun e => match e with
          | LookupEvent.dispatched _ => false
          | LookupEvent.settled _ => true) ∘ LookupEvent.dispatched) = 0 := by
      rw [List.countP_eq_zero]
      intro a _
      simp
    rw [h2]
    rfl
  have hbound : ∀ k, inFlight ((lookupEvents w allTokens order).take k) ≤
      (uniqueTokensSet w allTokens).length := by
    intro k
    unfold inFlight
    refine le_trans (Nat.sub_le _ _) ?_
    refine le_trans (List.Sublist.countP_le _ (List.take_sublist k _)) ?_
    unfold lookupEvents
    rw [countP_dispatched]
  refine ⟨hnow, ?_, hbound⟩
  apply le_antisymm
  · unfold peakInFlight
    apply foldr_max_le
    intro x hx
    rw [List.mem_map] at hx
    obtain ⟨k, _, rfl⟩ := hx
    exact hbound k
  · unfold peakInFlight
    apply le_foldr_max
    rw [List.mem_map]
    refine ⟨(uniqueTokensSet w allTokens).length, ?_, hnow⟩
    rw [List.mem_range]
    unfold lookupEvents
    simp
    omega

/-! ## Passphrases -/

theorem addToCollection_discord (st : Statistics) (collection item : JSString) :
    (st.addToCollection collection item).after.discord = st.discord := by
  unfold Statistics.addToCollection
  cases lookupCollection collection <;> rfl

theorem addPassphrase_skip (st : Statistics) (passphrase : Option JSString)
    (h : (truthy passphrase &&
      !((st.heap.discord st.data.discord).passphrases.contains (interpolate passphrase))) =
        false) :
    st.addPassphrase passphrase = st := by
  unfold Statistics.addPassphrase
  dsimp only
  rw [h]
  rfl

theorem addPassphrase_push (st : Statistics) (passphrase : Option JSString)
    (h : (truthy passphrase &&
      !((st.heap.discord st.data.discord).passphrases.contains (interpolate passphrase))) =
        true) :
    (st.addPassphrase passphrase).discord.passphrases =
      st.discord.passphrases ++ [interpolate passphrase] := by
  unfold Statistics.addPassphrase
  dsimp only
  rw [h]
  simp [Statistics.discord]

theorem truthy_interpolate_ne_nil (passphrase : Option JSString)
    (h : truthy passphrase = true) : interpolate passphrase ≠ [] := by
  cases passphrase with
  | none => simp [truthy] at h
  | some s =>
    cases s with
    | nil => simp [truthy] at h
    | cons c cs => simp [interpolate]

theorem addPassphrase_keeps (st : Statistics) (passphrase : Option JSString)
    (hnd : st.discord.passphrases.Nodup) (hne : [] ∉ st.discord.passphrases) :
    (st.addPassphrase passphrase).discord.passphrases.Nodup ∧
    [] ∉ (st.addPassphrase passphrase).discord.passphrases := by
  cases hc : (truthy passphrase &&
      !((st.heap.discord st.data.discord).passphrases.contains (interpolate passphrase))) with
  | false =>
    rw [addPassphrase_skip st passphrase hc]
    exact ⟨hnd, hne⟩
  | true =>
    rw [addPassphrase_push st passphrase hc]
    rw [Bool.and_eq_true] at hc
    have hnew : interpolate passphrase ∉ st.discord.passphrases := by
      have := hc.2
      simpa [Statistics.discord] using this
    constructor
    · rw [List.nodup_append]
      refine ⟨hnd, List.nodup_singleton _, ?_⟩
      intro a ha hb
      rw [List.mem_singleton] at hb
      exact hnew (hb ▸ ha)
    · intro hmem
      rw [List.mem_append, List.mem_singleton] at hmem
      rcases hmem with hmem | hmem
      · exact hne hmem
      · exact truthy_interpolate_ne_nil passphrase hc.1 hmem.symm

theorem call_keeps_passphrases (stringifyData : DataContents → JSString)
    (stringifyPayload : Payload → JSString) (st : Statistics) (c : StatsCall)
    (hnd : st.discord.passphrases.Nodup) (hne : [] ∉ st.discord.passphrases) :
    (st.call stringifyData stringifyPayload c).discord.passphrases.Nodup ∧
    [] ∉ (st.call stringifyData stringifyPayload c).discord.passphrases := by
  have hsame : ∀ st' : Statistics, st'.discord.passphrases = st.discord.passphrases →
      st'.discord.passphrases.Nodup ∧ [] ∉ st'.discord.passphrases := by
    intro st' h
    rw [h]
    exact ⟨hnd, hne⟩
  have hcoll : ∀ collection item,
      (st.addToCollection collection item).after.discord.passphrases =
        st.discord.passphrases := by
    intro collection item
    rw [addToCollection_discord]
  cases c with
  | reset now =>
    have hd : (st.reset now).discord = { accounts := [], passphrases := [] } := by
      simp [Statistics.reset, Statistics.discord]
    show (st.reset now).discord.passphrases.Nodup ∧ [] ∉ (st.reset now).discord.passphrases
    rw [hd]
    simp
  | addBrowser browserData => exact hsame _ rfl
  | addToCollection collection item => exact hsame _ (hcoll collection item)
  | addGame name => exact hsame _ (hcoll _ name)
  | addExodus name => exact hsame _ (hcoll _ name)
  | addKeywordPassword keyword => exact hsame _ (hcoll _ keyword)
  | addVpn name => exact hsame _ (hcoll _ name)
  | addSysadmin name => exact hsame _ (hcoll _ name)
  | addExtension name => exact hsame _ (hcoll _ name)
  | addCold name => exact hsame _ (hcoll _ name)
  | addMnemonic mnemonic => exact hsame _ (hcoll _ mnemonic)
  | addMessenger name => exact hsame _ (hcoll _ name)
  | addFile name => exact hsame _ (hcoll _ name)
  | addDiscordAccount account =>
    apply hsame
    simp [Statistics.call, Statistics.addDiscordAccount, Statistics.discord]
  | addPassphrase passphrase => exact addPassphrase_keeps st passphrase hnd hne
  | setSystemInfo now systemInfo => exact hsame _ rfl
  | getFormattedStats => exact hsame _ rfl
  | buildWebhookPayload username hostname ip => exact hsame _ rfl
  | getRawData => exact hsame _ rfl
  | exportToJson => exact hsame _ rfl

theorem run_keeps_passphrases (stringifyData : DataContents → JSString)
    (stringifyPayload : Payload → JSString) (calls : List StatsCall) (st : Statistics)
    (hnd : st.discord.passphrases.Nodup) (hne : [] ∉ st.discord.passphrases) :
    (st.run stringifyData stringifyPayload calls).discord.passphrases.Nodup ∧
    [] ∉ (st.run stringifyData stringifyPayload calls).discord.passphrases := by
  induction calls generalizing st with
  | nil => exact ⟨hnd, hne⟩
  | cons c cs ih =>
    have hstep := call_keeps_passphrases stringifyData stringifyPayload st c hnd hne
    exact ih (st.call stringifyData stringifyPayload c) hstep.1 hstep.2

/-- C21: starting from `reset`, after any sequence of calls of the methods of
the aggregator the passphrases list has no duplicate and no empty value;
`addPassphrase` of an empty or absent passphrase, or of one already in the
list, leaves the aggregator as it is; and `addPassphrase` is idempotent. -/
theorem passphrases_never_duplicate (stringifyData : DataContents → JSString)
    (stringifyPayload : Payload → JSString) (st : Statistics) (now : JSString)
    (calls : List StatsCall) :
    ((st.reset now).run stringifyData stringifyPayload calls).discord.passphrases.Nodup ∧
    [] ∉ ((st.reset now).run stringifyData stringifyPayload calls).discord.passphrases ∧
    (∀ s : Statistics, s.addPassphrase none = s ∧ s.addPassphrase (some []) = s) ∧
    (∀ (s : Statistics) (passphrase : JSString), passphrase ∈ s.discord.passphrases →
      s.addPassphrase (some passphrase) = s) ∧
    (∀ (s : Statistics) (passphrase : Option JSString),
      (s.addPassphrase passphrase).addPassphrase passphrase = s.addPassphrase passphrase) := by
  have hreset : (st.reset now).discord = { accounts := [], passphrases := [] } := by
    simp [Statistics.reset, Statistics.discord]
  have hrun := run_keeps_passphrases stringifyData stringifyPayload calls (st.reset now)
    (by rw [hreset]; exact List.nodup_nil) (by rw [hreset]; simp)
  refine ⟨hrun.1, hrun.2, ?_, ?_, ?_⟩
  · intro s
    exact ⟨addPassphrase_skip s none (by simp [truthy]),
      addPassphrase_skip s (some []) (by simp [truthy])⟩
  · intro s passphrase hmem
    apply addPassphrase_skip
    have hc : (s.heap.discord s.data.discord).passphrases.contains passphrase = true := by
      simpa [Statistics.discord] using hmem
    rw [show interpolate (some passphrase) = passphrase from rfl, hc]
    simp
  · intro s passphrase
    cases hc : (truthy passphrase &&
        !((s.heap.discord s.data.discord).passphrases.contains (interpolate passphrase))) with
    | false =>
      rw [addPassphrase_skip s passphrase hc, addPassphrase_skip s passphrase hc]
    | true =>
      apply addPassphrase_skip
      have hpush := addPassphrase_push s passphrase hc
      have hin : ((s.addPassphrase passphrase).heap.discord
          (s.addPassphrase passphrase).data.discord).passphrases.contains
            (interpolate passphrase) = true := by
        have : interpolate passphrase ∈ (s.addPassphrase passphrase).discord.passphrases := by
          rw [hpush]
          simp
        simpa [Statistics.discord] using this
      rw [hin]
      simp

/-! ## `buildWebhookPayload` -/

/-- C22: `buildWebhookPayload` returns the JSON text of an object with
`content` null, no attachments and exactly one embed, which is the account
embed of the first recorded account when an account has been recorded (the
accounts after it play no part) and the system embed otherwise; the
aggregator is left as it is. -/
theorem buildWebhookPayload_one_embed (stringify : Payload → JSString) (st : Statistics)
    (username hostname ip : JSString) :
    (st.buildWebhookPayload stringify username hostname ip).1 =
      stringify (st.webhookPayload username hostname ip) ∧
    (st.buildWebhookPayload stringify username hostname ip).2 = st ∧
    (st.webhookPayload username hostname ip).content = none ∧
    (st.webhookPayload username hostname ip).attachments = [] ∧
    (st.webhookPayload username hostname ip).embeds.length = 1 ∧
    (st.webhookPayload username hostname ip).embeds =
      (match st.discord.accounts with
        | account :: _ => [Embed.account account ip]
        | [] =>
          [Embed.system (some username) (some hostname) (some ip) st.getFormattedStats.1]) := by
  have hembeds : st.webhookPayload username hostname ip =
      { content := none
        embeds :=
          (match st.discord.accounts with
            | account :: _ => [Embed.account account ip]
            | [] =>
              [Embed.system (some username) (some hostname) (some ip)
                st.getFormattedStats.1])
        attachments := [] } := by
    unfold Statistics.webhookPayload Statistics.discord
    cases hacc : (st.heap.discord st.data.discord).accounts with
    | nil => simp
    | cons a rest => simp
  refine ⟨rfl, rfl, ?_, ?_, ?_, ?_⟩
  · rw [hembeds]
  · rw [hembeds]
  · rw [hembeds]
    cases st.discord.accounts <;> rfl
  · rw [hembeds]

end ShadowRecon
